import Mathlib

/-!
# Gold mining game: shared arena, identity slots, movement, teardown

A shallow embedding of `mine_entrance.cpp` (and of the cell addressing of
`map_parser.cpp`).  Unsigned 32-bit arithmetic of the sources is written over
`Nat` with an explicit `% UINT`; a read or write of `gmp->map` outside the
stored cells, and a division by a zero dimension, make an operation return
`none`.
-/

namespace GoldMine

/-! ## Constants and data model -/

/-- Modelled from the spec: `goldchase.h` is not among the sources, so the cell
markers `G_GOLD`, `G_FOOL`, `G_PLR0` .. `G_PLR4`, `G_WALL` and the participant
test mask `G_ANYP` are a parameter of every operation. -/
structure Goldchase where
  G_GOLD : Nat
  G_FOOL : Nat
  G_PLR0 : Nat
  G_PLR1 : Nat
  G_PLR2 : Nat
  G_PLR3 : Nat
  G_PLR4 : Nat
  G_WALL : Nat
  G_ANYP : Nat
deriving DecidableEq, Repr

/-- The eight one-bit values of a byte. -/
def byteBits : List Nat := [1, 2, 4, 8, 16, 32, 64, 128]

/-- The eight markers of a constant table, in declaration order. -/
def Goldchase.markers (K : Goldchase) : List Nat :=
  [K.G_GOLD, K.G_FOOL, K.G_PLR0, K.G_PLR1, K.G_PLR2, K.G_PLR3, K.G_PLR4, K.G_WALL]

/-- Modelled from the spec: what the sources and the spec rely on about the
missing constants.  Every marker is one bit of a byte (the arena is a byte
array and `participant_mask` "a bitmask over slots 1..5"), no two markers
share a bit, and `G_ANYP` is the union of the five participant bits. -/
def Goldchase.wellFormed (K : Goldchase) : Prop :=
  (∀ x ∈ K.markers, x ∈ byteBits) ∧ K.markers.Nodup ∧
    K.G_ANYP = K.G_PLR0 ||| K.G_PLR1 ||| K.G_PLR2 ||| K.G_PLR3 ||| K.G_PLR4

instance (K : Goldchase) : Decidable K.wellFormed := by
  unfold Goldchase.wellFormed; infer_instance

/-- Modelled from the spec: `goldchase.h` is not among the sources; one table
of markers that meets `wellFormed` (one bit each, in declaration order), used
to evaluate the operations on concrete arenas. -/
def stdMarkers : Goldchase :=
  { G_GOLD := 1, G_FOOL := 2, G_PLR0 := 4, G_PLR1 := 8, G_PLR2 := 16,
    G_PLR3 := 32, G_PLR4 := 64, G_WALL := 128, G_ANYP := 124 }

/-- Modelled from the spec: the declaration of `goldMine_S` (`mine_entrance.h`)
is not among the sources.  The fields are the ones the sources use: the two
dimensions, the participant mask `players` (a byte) and the cell array `map`
(bytes, `rows * cols` of them in a well-formed arena). -/
structure goldMine_S where
  rows : Nat
  cols : Nat
  players : Nat
  map : List Nat
deriving DecidableEq, Repr

/-- Values of `ERROR_CODE_E` that the modelled operations report. -/
inductive ERROR_CODE_E where
  | error_max_number_of_players_reached
  | error_in_sem_close
  | error_in_sem_unlink
  | error_in_shm_unlink
deriving DecidableEq, Repr

/-- The notices a process posts on its `Map` object (`postNotice`). -/
inductive Notice where
  | player_banner (n : Nat)
  | found_real_gold
  | you_won
  | found_fools_gold
deriving DecidableEq, Repr

/-- The file-scope state of one process (`player_number`,
`player_found_gold`), with the notices it has posted and the errors it has
reported through `handle_error`, oldest first. -/
structure Process where
  player_number : Nat
  player_found_gold : Bool
  notices : List Notice
  errors : List ERROR_CODE_E
deriving DecidableEq, Repr

/-- Number of values of `unsigned int`. -/
def UINT : Nat := 2 ^ 32

/-- Number of values of `unsigned char`. -/
def UCHAR : Nat := 2 ^ 8

/-! ## Identity slots -/

/-- Function `pn_to_player_bit_mask`: the marker of slot `pn`, 99 outside 1..5. -/
def pn_to_player_bit_mask (K : Goldchase) (pn : Nat) : Nat :=
  match pn with
  | 1 => K.G_PLR0
  | 2 => K.G_PLR1
  | 3 => K.G_PLR2
  | 4 => K.G_PLR3
  | 5 => K.G_PLR4
  | _ => 99

/-- Function `set_player_bit`: `gmp->players |= pn_to_player_bit_mask(pn)`. -/
def set_player_bit (K : Goldchase) (pn : Nat) (g : goldMine_S) : goldMine_S :=
  { g with players := (g.players ||| pn_to_player_bit_mask K pn) % UCHAR }

/-- Function `reset_player_bit`: `gmp->players &= ~pn_to_player_bit_mask(pn)`; the
complement is taken on the promoted 32-bit value. -/
def reset_player_bit (K : Goldchase) (pn : Nat) (g : goldMine_S) : goldMine_S :=
  { g with players := (g.players &&& (UINT - 1 - pn_to_player_bit_mask K pn)) % UCHAR }

/-! ## Movement -/

/-- Function `move_player`: posts the gold notices, sets `player_found_gold` on real
gold, empties the current cell and writes the marker into the target cell. -/
def move_player (K : Goldchase) (player_bit_mask current_location target_location : Nat)
    (g : goldMine_S) (p : Process) : Option (goldMine_S × Process) :=
  match g.map[target_location]? with
  | none => none
  | some c =>
    let player_found_real_gold := decide (c = K.G_GOLD)
    let player_found_fools_gold := decide (c = K.G_FOOL)
    let p1 : Process :=
      if player_found_real_gold then
        { p with notices := p.notices ++ [Notice.found_real_gold, Notice.you_won],
                 player_found_gold := true }
      else p
    let p2 : Process :=
      if player_found_fools_gold then
        { p1 with notices := p1.notices ++ [Notice.found_fools_gold] }
      else p1
    if current_location < g.map.length then
      some ({ g with map := (g.map.set current_location 0).set target_location
                              (player_bit_mask % UCHAR) }, p2)
    else none

/-- The locating loop of `controller`: the first index `i`, among `n` cells
from `i` on, whose cell equals `pn`; 0 (the initial value of `pl`) when the
loop runs out. -/
def scan_for (map : List Nat) (pn : Nat) : Nat → Nat → Option Nat
  | 0, _ => some 0
  | n + 1, i =>
    match map[i]? with
    | none => none
    | some c => if c = pn then some i else scan_for map pn n (i + 1)

/-- The locals of `controller` that the direction switch sets. -/
structure Locals where
  tl : Nat
  move_requested : Bool
  player_is_not_going_off_the_map : Bool
deriving DecidableEq, Repr

/-- The test `gmp->map[tl] & (unsigned char)G_ANYP`. -/
def holds_player (K : Goldchase) (c : Nat) : Bool :=
  c &&& (K.G_ANYP % UCHAR) != 0

/-- Case `h` / `H` of the switch of `controller` (left). -/
def case_h (K : Goldchase) (g : goldMine_S) (found : Bool) (pl : Nat) : Option Locals :=
  if g.cols = 0 then none else
  let ok := decide (pl % g.cols > 0)
  if ok || found then
    let tl := (pl + (UINT - 1)) % UINT
    match g.map[tl]? with
    | none => none
    | some c =>
      if holds_player K c then
        let tl2 := (tl + (UINT - 1)) % UINT
        let ok2 := decide (pl % g.cols > 0)
        some ⟨tl2, ok2 || found, ok2⟩
      else some ⟨tl, true, ok⟩
  else some ⟨0, false, ok⟩

/-- Case `j` / `J` of the switch of `controller` (down). -/
def case_j (K : Goldchase) (g : goldMine_S) (found : Bool) (pl : Nat) : Option Locals :=
  if g.rows = 0 then none else
  let ok := decide (pl / g.rows < (g.rows * 2 + 1) % UINT)
  if ok || found then
    let tl := (pl + g.cols) % UINT
    match g.map[tl]? with
    | none => none
    | some c =>
      if holds_player K c then
        let tl2 := (tl + g.cols) % UINT
        let ok2 := decide (tl2 / g.rows < (g.rows * 2 + 1) % UINT)
        some ⟨tl2, ok2 || found, ok2⟩
      else some ⟨tl, true, ok⟩
  else some ⟨0, false, ok⟩

/-- Case `k` / `K` of the switch of `controller` (up); the first target is
`std::max((int)pl - gmp->cols, 0)`. -/
def case_k (K : Goldchase) (g : goldMine_S) (found : Bool) (pl : Nat) : Option Locals :=
  if g.rows = 0 then none else
  let ok := decide (pl / g.rows > 1)
  if ok || found then
    let tl := (Int.toNat (max ((pl : Int) - (g.cols : Int)) 0)) % UINT
    match g.map[tl]? with
    | none => none
    | some c =>
      if holds_player K c then
        let tl2 := (tl + (UINT - g.cols % UINT)) % UINT
        let ok2 := decide (tl2 / g.rows > 1)
        some ⟨tl2, ok2 || found, ok2⟩
      else some ⟨tl, true, ok⟩
  else some ⟨0, false, ok⟩

/-- Case `l` / `L` of the switch of `controller` (right). -/
def case_l (K : Goldchase) (g : goldMine_S) (found : Bool) (pl : Nat) : Option Locals :=
  if g.cols = 0 then none else
  let ok := decide (pl % g.cols < g.cols - 1)
  if ok || found then
    let tl := (pl + 1) % UINT
    match g.map[tl]? with
    | none => none
    | some c =>
      if holds_player K c then
        let tl2 := (tl + 1) % UINT
        let ok2 := decide (tl2 % g.cols < g.cols - 1)
        some ⟨tl2, ok2 || found, ok2⟩
      else some ⟨tl, true, ok⟩
  else some ⟨0, false, ok⟩

/-- The four directions of a move. -/
inductive Direction where
  | left
  | down
  | up
  | right
deriving DecidableEq, Repr

/-- The key codes of a direction: `h`/`H`, `j`/`J`, `k`/`K`, `l`/`L`. -/
def Direction.keys : Direction → List Nat
  | Direction.left => [104, 72]
  | Direction.down => [106, 74]
  | Direction.up => [107, 75]
  | Direction.right => [108, 76]

/-- The direction switch of `controller`: any other key leaves the locals at
their initial values. -/
def switch_input (K : Goldchase) (input : Nat) (g : goldMine_S) (found : Bool) (pl : Nat) :
    Option Locals :=
  if input = 104 ∨ input = 72 then case_h K g found pl
  else if input = 106 ∨ input = 74 then case_j K g found pl
  else if input = 107 ∨ input = 75 then case_k K g found pl
  else if input = 108 ∨ input = 76 then case_l K g found pl
  else some ⟨0, false, false⟩

/-- The marker `pn` that `controller` takes from `player_number` (0 outside
1..5). -/
def controller_pn (K : Goldchase) (player_number : Nat) : Nat :=
  match player_number with
  | 1 => K.G_PLR0
  | 2 => K.G_PLR1
  | 3 => K.G_PLR2
  | 4 => K.G_PLR3
  | 5 => K.G_PLR4
  | _ => 0

/-- The location `pl` that `controller` computes. -/
def controller_pl (K : Goldchase) (g : goldMine_S) (p : Process) : Option Nat :=
  if controller_pn K p.player_number > 0 then
    scan_for g.map (controller_pn K p.player_number) ((g.cols * g.rows) % UINT) 0
  else some 0

/-- The tail of `controller`: the move is applied when it was requested and
the target is not a wall. -/
def apply_move (K : Goldchase) (pn pl : Nat) (loc : Locals) (g : goldMine_S) (p : Process) :
    Option (goldMine_S × Process) :=
  if loc.move_requested then
    match g.map[loc.tl]? with
    | none => none
    | some c => if c ≠ K.G_WALL then move_player K pn pl loc.tl g p else some (g, p)
  else some (g, p)

/-- Function `controller`: returns `exit_requested` with the arena and the process
state after the call. -/
def controller (K : Goldchase) (input : Nat) (g : goldMine_S) (p : Process) :
    Option (Bool × goldMine_S × Process) :=
  match controller_pl K g p with
  | none => none
  | some pl =>
    match switch_input K input g p.player_found_gold pl with
    | none => none
    | some loc =>
      match apply_move K (controller_pn K p.player_number) pl loc g p with
      | none => none
      | some (g1, p1) =>
        some (p1.player_found_gold && !loc.player_is_not_going_off_the_map, g1, p1)

/-! ## Joining and leaving -/

/-- The test `pn_to_player_bit_mask(k) & ~gmp->players` of the slot scan; the
complement is taken on the promoted 32-bit value. -/
def slot_free (K : Goldchase) (players k : Nat) : Bool :=
  pn_to_player_bit_mask K k &&& (UINT - 1 - players) != 0

/-- The slot scan of `run_subsequent_player_init_routine` (the branch in which
the gate was taken and the segment opened and mapped): returns `success` with
the arena and the process state. -/
def run_subsequent_player_init_routine (K : Goldchase) (g : goldMine_S) (p : Process) :
    Bool × goldMine_S × Process :=
  if slot_free K g.players 1 then (true, g, { p with player_number := 1 })
  else if slot_free K g.players 2 then (true, g, { p with player_number := 2 })
  else if slot_free K g.players 3 then (true, g, { p with player_number := 3 })
  else if slot_free K g.players 4 then (true, g, { p with player_number := 4 })
  else if slot_free K g.players 5 then (true, g, { p with player_number := 5 })
  else (false, g, { p with player_number := 6,
                           errors := p.errors ++
                             [ERROR_CODE_E.error_max_number_of_players_reached] })

/-- The named objects of the operating system that the game uses: whether the
name of the semaphore and the name of the shared-memory segment exist. -/
structure Names where
  sem_linked : Bool
  shm_linked : Bool
deriving DecidableEq, Repr

/-- The scan-and-clear loop of `clean_up`: the first cell, among `n` cells
from `i` on, that equals `pn` is set to 0. -/
def clear_first (map : List Nat) (pn : Nat) : Nat → Nat → Option (List Nat)
  | 0, _ => some map
  | n + 1, i =>
    match map[i]? with
    | none => none
    | some c => if c = pn then some (map.set i 0) else clear_first map pn n (i + 1)

/-- The first block of `clean_up`: for a slot in 1..5 the bit is reset and the
marker removed from the map. -/
def clean_up_player (K : Goldchase) (g : goldMine_S) (p : Process) : Option goldMine_S :=
  if 0 < p.player_number ∧ p.player_number < 6 then
    match clear_first (reset_player_bit K p.player_number g).map
        (pn_to_player_bit_mask K p.player_number) ((g.cols * g.rows) % UINT) 0 with
    | none => none
    | some m => some { reset_player_bit K p.player_number g with map := m }
  else some g

/-- Function `clean_up`: after the first block, the last participant (`players == 0`)
unlinks the semaphore and the segment; an unlink of a name that does not exist
is reported through `handle_error`. -/
def clean_up (K : Goldchase) (g : goldMine_S) (p : Process) (os : Names) :
    Option (goldMine_S × Process × Names) :=
  match clean_up_player K g p with
  | none => none
  | some g1 =>
    let last_one_in_game := decide (g1.players = 0)
    if last_one_in_game then
      let e1 := if os.sem_linked then [] else [ERROR_CODE_E.error_in_sem_unlink]
      let e2 := if os.shm_linked then [] else [ERROR_CODE_E.error_in_shm_unlink]
      some (g1, { p with errors := p.errors ++ e1 ++ e2 },
        { sem_linked := false, shm_linked := false })
    else some (g1, p, os)

/-- The placement at the head of `main_loop`: the bit of the slot is set, and
the marker is written into the cell `r` that the random draw hit, the first
draw of an empty cell (`none` when cell `r` is not an empty cell of the map). -/
def main_loop_place (K : Goldchase) (r : Nat) (g : goldMine_S) (p : Process) : Option goldMine_S :=
  if r < (g.rows * g.cols) % UINT then
    match (set_player_bit K p.player_number g).map[r]? with
    | some 0 =>
      some { set_player_bit K p.player_number g with
               map := (set_player_bit K p.player_number g).map.set r
                        (pn_to_player_bit_mask K p.player_number % UCHAR) }
    | _ => none
  else none

/-- Number of bits set in a byte. -/
def bits_set (m : Nat) : Nat := (List.range 8).countP (fun i => m.testBit i)

/-! ## Sessions of several processes -/

/-- Where a process stands in `main`. -/
inductive Phase where
  | fresh
  | initialised
  | playing
  | gone
deriving DecidableEq, Repr

/-- One process of a session. -/
structure Participant where
  proc : Process
  phase : Phase
deriving DecidableEq, Repr

/-- One arena with the processes that take part and the names of the
operating system. -/
structure Session where
  gm : goldMine_S
  procs : List Participant
  os : Names
deriving DecidableEq, Repr

/-- The steps of the processes of a session, each by the index of its process:
the slot scan of a joiner, the placement at the head of `main_loop`, a key
handled by `controller`, and `clean_up`. -/
inductive Event where
  | join (who : Nat)
  | place (who : Nat) (r : Nat)
  | key (who : Nat) (input : Nat)
  | leave (who : Nat)
deriving DecidableEq, Repr

/-- The session right after the host has run `initialization_routine`
(`player_number = 1`) and `run_first_player_init_routine` on the map `g0`:
the mask is empty, no joiner has started. -/
def host_session (g0 : goldMine_S) (joiners : Nat) : Session :=
  { gm := { g0 with players := 0 },
    procs := ⟨⟨1, false, [], []⟩, Phase.initialised⟩ ::
      List.replicate joiners ⟨⟨0, false, [], []⟩, Phase.fresh⟩,
    os := { sem_linked := true, shm_linked := true } }

/-- One step of a session (`none` when the step is not enabled or faults). -/
def Session.step (K : Goldchase) (s : Session) : Event → Option Session
  | Event.join i =>
    match s.procs[i]? with
    | some ⟨p, Phase.fresh⟩ =>
      match run_subsequent_player_init_routine K s.gm { p with player_number := 2 } with
      | (true, g1, p1) => some { s with gm := g1, procs := s.procs.set i ⟨p1, Phase.initialised⟩ }
      | (false, g1, p1) => some { s with gm := g1, procs := s.procs.set i ⟨p1, Phase.gone⟩ }
    | _ => none
  | Event.place i r =>
    match s.procs[i]? with
    | some ⟨p, Phase.initialised⟩ =>
      match main_loop_place K r s.gm p with
      | some g1 => some { s with gm := g1, procs := s.procs.set i ⟨p, Phase.playing⟩ }
      | none => none
    | _ => none
  | Event.key i input =>
    match s.procs[i]? with
    | some ⟨p, Phase.playing⟩ =>
      match controller K input s.gm p with
      | some (_, g1, p1) => some { s with gm := g1, procs := s.procs.set i ⟨p1, Phase.playing⟩ }
      | none => none
    | _ => none
  | Event.leave i =>
    match s.procs[i]? with
    | some ⟨p, Phase.playing⟩ =>
      match clean_up K s.gm p s.os with
      | some (g1, p1, os1) =>
        some { gm := g1, procs := s.procs.set i ⟨p1, Phase.gone⟩, os := os1 }
      | none => none
    | _ => none

/-- A run of a session: the events applied in order. -/
def Session.run (K : Goldchase) (s : Session) : List Event → Option Session
  | [] => some s
  | e :: es =>
    match s.step K e with
    | none => none
    | some s1 => s1.run K es

/-- The slots held by the live participants (the processes in `main_loop`). -/
def Session.live_slots (s : Session) : List Nat :=
  (s.procs.filter (fun q => q.phase = Phase.playing)).map (fun q => q.proc.player_number)

/-- The cells of a map that hold `G_WALL`, as one flag per cell. -/
def wall_cells (K : Goldchase) (map : List Nat) : List Bool :=
  map.map (fun c => decide (c = K.G_WALL))

/-- The invariant of the data model: every slot whose bit is set in the mask
has exactly one cell holding its marker, and no slot has more than one. -/
def one_cell_each (K : Goldchase) (g : goldMine_S) : Prop :=
  ∀ k ∈ [1, 2, 3, 4, 5],
    (g.players &&& pn_to_player_bit_mask K k ≠ 0 → g.map.count (pn_to_player_bit_mask K k) = 1) ∧
      g.map.count (pn_to_player_bit_mask K k) ≤ 1

instance (K : Goldchase) (g : goldMine_S) : Decidable (one_cell_each K g) := by
  unfold one_cell_each; infer_instance

/-! ## Vocabulary of the properties -/

/-- The five participant markers of a constant table. -/
def Goldchase.participants (K : Goldchase) : List Nat :=
  [K.G_PLR0, K.G_PLR1, K.G_PLR2, K.G_PLR3, K.G_PLR4]

/-- A well-formed arena: positive dimensions, exactly `rows * cols` cells, a
cell count below `2 ^ 30` (so that neither `cols * rows` nor `rows * 2 + 1`
overflows a 32-bit `int`), and a participant mask that is a byte. -/
def goldMine_S.wellFormed (g : goldMine_S) : Prop :=
  1 ≤ g.rows ∧ 1 ≤ g.cols ∧ g.map.length = g.rows * g.cols ∧ g.rows * g.cols < 2 ^ 30 ∧
    g.players < UCHAR

instance (g : goldMine_S) : Decidable g.wellFormed := by
  unfold goldMine_S.wellFormed; infer_instance

/-- Spec side: the index of the cell `n` steps from cell `pl` in direction `d`
(row `pl / cols`, column `pl % cols`), when that cell is on the grid: the
column stays in `[0, cols)` for left and right, the row in `[0, rows)` for up
and down. -/
def cell_toward (g : goldMine_S) (pl : Nat) (d : Direction) (n : Nat) : Option Nat :=
  match d with
  | Direction.left => if n ≤ pl % g.cols then some (pl - n) else none
  | Direction.right => if pl % g.cols + n < g.cols then some (pl + n) else none
  | Direction.up => if n ≤ pl / g.cols then some (pl - n * g.cols) else none
  | Direction.down => if pl / g.cols + n < g.rows then some (pl + n * g.cols) else none

/-- Spec side: the resolved target of a move from `pl` in direction `d`: the
adjacent cell, or the cell one further in the same direction when the adjacent
cell holds a participant marker; `none` when that cell is off the grid. -/
def resolved_target (K : Goldchase) (g : goldMine_S) (pl : Nat) (d : Direction) : Option Nat :=
  match cell_toward g pl d 1 with
  | none => none
  | some a =>
    if g.map.getD a 0 ∈ K.participants then cell_toward g pl d 2 else some a

/-- Spec side: the participant of process `p` has a slot in 1..5 and its
marker occupies exactly one cell of the arena, cell `pl`. -/
def occupies (K : Goldchase) (g : goldMine_S) (p : Process) (pl : Nat) : Prop :=
  1 ≤ p.player_number ∧ p.player_number ≤ 5 ∧
    g.map[pl]? = some (pn_to_player_bit_mask K p.player_number) ∧
    g.map.count (pn_to_player_bit_mask K p.player_number) = 1

instance (K : Goldchase) (g : goldMine_S) (p : Process) (pl : Nat) :
    Decidable (occupies K g p pl) := by
  unfold occupies; infer_instance

/-- Whether a call of `controller` reaches `move_player`, that is, accepts the
move: the switch requested it and the target cell is not a wall. -/
def move_accepted (K : Goldchase) (input : Nat) (g : goldMine_S) (p : Process) : Bool :=
  match controller_pl K g p with
  | none => false
  | some pl =>
    match switch_input K input g p.player_found_gold pl with
    | none => false
    | some loc =>
      loc.move_requested &&
        (match g.map[loc.tl]? with
         | none => false
         | some c => decide (c ≠ K.G_WALL))

/-! ## Cell addressing -/

/-- The index `current_position_abs` that `slurp_map` computes for the cell in
row `row` and column `col`: `cur_row * columns + cur_col`, in the unsigned
32-bit arithmetic of the source. -/
def index_of (cols row col : Nat) : Nat := (row * cols + col) % UINT

/-! ## The gate around the writes of a process -/

/-- The part of `main` that makes a write to the arena: the set-up of the host
(`run_first_player_init_routine`), the head of `main_loop` (`set_player_bit`
and the placement), a move (`controller`, `move_player`), and `clean_up`. -/
inductive Origin where
  | setup
  | placement
  | move
  | teardown
deriving DecidableEq, Repr

/-- What a process does to the gate and to the arena, in program order: a
`sem_wait` with its outcome, a `sem_post`, a write to the mask or to a cell. -/
inductive Op where
  | sem_wait (ok : Bool)
  | sem_post
  | write (src : Origin)
deriving DecidableEq, Repr

/-- One key read by `main_loop`: the key, whether the `sem_wait` that guards
its handling succeeds, and the arena as the process finds it then (the other
processes may have changed it in between). -/
structure KeyPress where
  input : Nat
  wait_ok : Bool
  arena : goldMine_S
deriving DecidableEq, Repr

/-- The key loop of `main_loop`: a move key takes the gate and, when
`sem_wait` succeeded, calls `controller` (two writes in `move_player` when the
move is accepted) and posts the gate; `q` and `Q` leave the loop, as does
`exit_requested`; the loop also ends with the keys.  The process state is
`none` after a fault inside `controller`. -/
def key_loop_ops (K : Goldchase) : Process → List KeyPress → List Op × Option Process
  | p, [] => ([], some p)
  | p, k :: ks =>
    if k.input ∈ [104, 72, 106, 74, 107, 75, 108, 76] then
      if k.wait_ok then
        match controller K k.input k.arena p with
        | none => ([Op.sem_wait true], none)
        | some (exit_requested, _, p1) =>
          let here := [Op.sem_wait true] ++
            (if move_accepted K k.input k.arena p then
              [Op.write Origin.move, Op.write Origin.move] else []) ++ [Op.sem_post]
          if exit_requested then (here, some p1)
          else (here ++ (key_loop_ops K p1 ks).1, (key_loop_ops K p1 ks).2)
      else (Op.sem_wait false :: (key_loop_ops K p ks).1, (key_loop_ops K p ks).2)
    else if k.input = 113 ∨ k.input = 81 then ([], some p)
    else key_loop_ops K p ks

/-- The writes of `clean_up` on the arena `g`: for a slot in 1..5 the bit is
reset and, when the scan finds the marker, its cell is cleared. -/
def clean_up_ops (K : Goldchase) (g : goldMine_S) (p : Process) : List Op :=
  if 0 < p.player_number ∧ p.player_number < 6 then
    Op.write Origin.teardown ::
      (if pn_to_player_bit_mask K p.player_number ∈ g.map.take ((g.cols * g.rows) % UINT) then
        [Op.write Origin.teardown] else [])
  else []

/-- The part of `main` after a successful initialisation: `main_loop` (the
bit of the slot and the placement, then the key loop) and, unless the process
faulted, `clean_up` on the arena `final`. -/
def play_ops (K : Goldchase) (p : Process) (keys : List KeyPress) (final : goldMine_S) :
    List Op :=
  [Op.write Origin.placement, Op.write Origin.placement] ++ (key_loop_ops K p keys).1 ++
    (match (key_loop_ops K p keys).2 with
     | some p1 => clean_up_ops K final p1
     | none => [])

/-- One execution of `main` in which the semaphore was opened: the role, the
outcome of `sem_wait` in the initialisation routine, whether the rest of the
initialisation succeeds (the map file, `shm_open`, `mmap`), the arena a joiner
maps, the keys, and the arena at the time of `clean_up`. -/
structure Execution where
  host : Bool
  init_wait_ok : Bool
  init_ok : Bool
  arena : goldMine_S
  keys : List KeyPress
  final : goldMine_S
deriving DecidableEq, Repr

/-- The gate operations and the arena writes of `main`, in program order.  The
host writes the dimensions and the map under the gate and takes slot 1; a
joiner runs the slot scan under the gate; both post the gate at the end of
the initialisation routine whatever happened, and run `main_loop` and
`clean_up` only after a successful initialisation. -/
def main_ops (K : Goldchase) (e : Execution) : List Op :=
  if e.init_wait_ok then
    if e.init_ok then
      if e.host then
        [Op.sem_wait true, Op.write Origin.setup, Op.sem_post] ++
          play_ops K ⟨1, false, [], []⟩ e.keys e.final
      else
        match run_subsequent_player_init_routine K e.arena ⟨2, false, [], []⟩ with
        | (true, _, p) => [Op.sem_wait true, Op.sem_post] ++ play_ops K p e.keys e.final
        | (false, _, _) => [Op.sem_wait true, Op.sem_post]
    else [Op.sem_wait true, Op.sem_post]
  else [Op.sem_wait false, Op.sem_post]

/-- Whether the process holds the gate after the operations `ops`, given
whether it held it before: a successful `sem_wait` takes it, `sem_post`
gives it back. -/
def gate_after : Bool → List Op → Bool
  | held, [] => held
  | held, Op.sem_wait ok :: t => gate_after (held || ok) t
  | _, Op.sem_post :: t => gate_after false t
  | held, Op.write _ :: t => gate_after held t

/-- The writes of a trace, each with its origin and whether the process held
the gate when it made the write. -/
def writes_with_gate : Bool → List Op → List (Origin × Bool)
  | _, [] => []
  | held, Op.sem_wait ok :: t => writes_with_gate (held || ok) t
  | _, Op.sem_post :: t => writes_with_gate false t
  | held, Op.write src :: t => (src, held) :: writes_with_gate held t

/-! ## Facts about the markers -/

theorem byteBits_and : ∀ a ∈ byteBits, ∀ b ∈ byteBits, a &&& b = if a = b then a else 0 := by
  decide

theorem byteBits_bounds : ∀ a ∈ byteBits, 0 < a ∧ a < 256 := by decide

theorem byteBits_or_lt : ∀ a, a < 256 → ∀ b ∈ byteBits, a ||| b < 256 := by
  intro a ha b hb
  have hb2 := (byteBits_bounds b hb).2
  exact @Nat.or_lt_two_pow a b 8 ha hb2

theorem wf_bits (K : Goldchase) (hK : K.wellFormed) :
    K.G_GOLD ∈ byteBits ∧ K.G_FOOL ∈ byteBits ∧ K.G_PLR0 ∈ byteBits ∧ K.G_PLR1 ∈ byteBits ∧
      K.G_PLR2 ∈ byteBits ∧ K.G_PLR3 ∈ byteBits ∧ K.G_PLR4 ∈ byteBits ∧ K.G_WALL ∈ byteBits := by
  have h := hK.1
  refine ⟨h _ ?_, h _ ?_, h _ ?_, h _ ?_, h _ ?_, h _ ?_, h _ ?_, h _ ?_⟩ <;>
    simp [Goldchase.markers]

theorem anyp_lt (K : Goldchase) (hK : K.wellFormed) : K.G_ANYP < 256 := by
  have hb := wf_bits K hK
  rw [hK.2.2]
  have h0 := (byteBits_bounds _ hb.2.2.1).2
  exact byteBits_or_lt _ (byteBits_or_lt _ (byteBits_or_lt _ (byteBits_or_lt _ h0 _ hb.2.2.2.1) _
    hb.2.2.2.2.1) _ hb.2.2.2.2.2.1) _ hb.2.2.2.2.2.2.1

/-- A marker other than the five participant markers fails the participant test. -/
theorem holds_player_other (K : Goldchase) (hK : K.wellFormed) (x : Nat) (hx : x ∈ byteBits)
    (hn : x ∉ K.participants) : holds_player K x = false := by
  have hlt := anyp_lt K hK
  have hb := wf_bits K hK
  have hA := hK.2.2
  simp only [Goldchase.participants, List.mem_cons, List.mem_singleton, not_or, List.not_mem_nil,
    or_false] at hn
  obtain ⟨n0, n1, n2, n3, n4⟩ := hn
  unfold holds_player
  rw [Nat.mod_eq_of_lt (by simpa [UCHAR] using hlt), hA]
  simp only [Nat.and_or_distrib_left]
  rw [byteBits_and x hx _ hb.2.2.1, byteBits_and x hx _ hb.2.2.2.1,
    byteBits_and x hx _ hb.2.2.2.2.1, byteBits_and x hx _ hb.2.2.2.2.2.1,
    byteBits_and x hx _ hb.2.2.2.2.2.2.1]
  simp [n0, n1, n2, n3, n4]

theorem or_ne_zero_left (a b : Nat) (h : a ≠ 0) : a ||| b ≠ 0 := by
  intro h0
  apply h
  apply Nat.eq_of_testBit_eq
  intro i
  have := congrArg (fun z => Nat.testBit z i) h0
  simp only [Nat.testBit_or, Nat.zero_testBit, Bool.or_eq_false_iff] at this
  simp [this.1]

theorem or_ne_zero_right (a b : Nat) (h : b ≠ 0) : a ||| b ≠ 0 := by
  rw [Nat.lor_comm]; exact or_ne_zero_left b a h

/-- Every participant marker passes the participant test. -/
theorem holds_player_participant (K : Goldchase) (hK : K.wellFormed) (x : Nat)
    (hx : x ∈ K.participants) : holds_player K x = true := by
  have hlt := anyp_lt K hK
  have hb := wf_bits K hK
  have hA := hK.2.2
  have hxb : x ∈ byteBits := by
    simp only [Goldchase.participants, List.mem_cons, List.mem_singleton, List.not_mem_nil,
      or_false] at hx
    rcases hx with h | h | h | h | h <;> subst h
    · exact hb.2.2.1
    · exact hb.2.2.2.1
    · exact hb.2.2.2.2.1
    · exact hb.2.2.2.2.2.1
    · exact hb.2.2.2.2.2.2.1
  have hpos := (byteBits_bounds x hxb).1
  unfold holds_player
  rw [Nat.mod_eq_of_lt (by simpa [UCHAR] using hlt), hA]
  simp only [Nat.and_or_distrib_left, bne_iff_ne, ne_eq]
  have hxx : x &&& x ≠ 0 := by rw [Nat.and_self]; omega
  simp only [Goldchase.participants, List.mem_cons, List.mem_singleton, List.not_mem_nil,
      or_false] at hx
  rcases hx with h | h | h | h | h
  · rw [← h]
    exact or_ne_zero_left _ _ (or_ne_zero_left _ _ (or_ne_zero_left _ _ (or_ne_zero_left _ _ hxx)))
  · rw [← h]
    exact or_ne_zero_left _ _ (or_ne_zero_left _ _ (or_ne_zero_left _ _ (or_ne_zero_right _ _ hxx)))
  · rw [← h]
    exact or_ne_zero_left _ _ (or_ne_zero_left _ _ (or_ne_zero_right _ _ hxx))
  · rw [← h]
    exact or_ne_zero_left _ _ (or_ne_zero_right _ _ hxx)
  · rw [← h]
    exact or_ne_zero_right _ _ hxx


theorem wf_distinct (K : Goldchase) (hK : K.wellFormed) :
    K.G_WALL ∉ K.participants ∧ K.G_GOLD ∉ K.participants ∧ K.G_FOOL ∉ K.participants ∧
      K.G_GOLD ≠ K.G_WALL ∧ K.G_GOLD ≠ K.G_FOOL ∧ K.G_FOOL ≠ K.G_WALL := by
  have h := hK.2.1
  simp only [Goldchase.markers, List.nodup_cons, List.mem_cons, List.mem_singleton, not_or,
    List.not_mem_nil, or_false, List.nodup_nil, and_true, not_false_eq_true] at h
  simp only [Goldchase.participants, List.mem_cons, List.mem_singleton, not_or,
    List.not_mem_nil, or_false]
  obtain ⟨⟨a1, a2, a3, a4, a5, a6, a7⟩, ⟨b2, b3, b4, b5, b6, b7⟩, ⟨c3, c4, c5, c6, c7⟩,
    ⟨d4, d5, d6, d7⟩, ⟨e5, e6, e7⟩, ⟨f6, f7⟩, g7⟩ := h
  refine ⟨⟨Ne.symm c7, Ne.symm d7, Ne.symm e7, Ne.symm f7, Ne.symm g7⟩,
    ⟨a2, a3, a4, a5, a6⟩, ⟨b2, b3, b4, b5, b6⟩, a7, a1, b7⟩

/-- The marker of a slot in 1..5 is a participant marker, and `controller`
uses the same marker. -/
theorem slot_marker (K : Goldchase) (n : Nat) (h1 : 1 ≤ n) (h5 : n ≤ 5) :
    pn_to_player_bit_mask K n ∈ K.participants ∧
      controller_pn K n = pn_to_player_bit_mask K n := by
  have : n = 1 ∨ n = 2 ∨ n = 3 ∨ n = 4 ∨ n = 5 := by omega
  rcases this with h | h | h | h | h <;> subst h <;>
    simp [pn_to_player_bit_mask, controller_pn, Goldchase.participants]

theorem participant_bit (K : Goldchase) (hK : K.wellFormed) (x : Nat)
    (hx : x ∈ K.participants) : x ∈ byteBits := by
  have hb := wf_bits K hK
  simp only [Goldchase.participants, List.mem_cons, List.mem_singleton, List.not_mem_nil,
    or_false] at hx
  rcases hx with h | h | h | h | h <;> subst h
  · exact hb.2.2.1
  · exact hb.2.2.2.1
  · exact hb.2.2.2.2.1
  · exact hb.2.2.2.2.2.1
  · exact hb.2.2.2.2.2.2.1

/-! ## The locating loop -/

theorem scan_for_first (map : List Nat) (pn : Nat) :
    ∀ (n i pl : Nat), i ≤ pl → pl < i + n → map[pl]? = some pn →
      (∀ j : Nat, i ≤ j → j < pl → map[j]? ≠ some pn) → scan_for map pn n i = some pl := by
  intro n
  induction n with
  | zero => intro i pl h1 h2; omega
  | succ n ih =>
    intro i pl h1 h2 hpl hbefore
    unfold scan_for
    by_cases hi : i = pl
    · subst hi
      simp [hpl]
    · have hlt : i < pl := by omega
      have hlen : pl < map.length := by
        rcases Nat.lt_or_ge pl map.length with h | h
        · exact h
        · rw [List.getElem?_eq_none h] at hpl; cases hpl
      have hil : i < map.length := by omega
      rw [List.getElem?_eq_getElem hil]
      have hne := hbefore i (Nat.le_refl i) hlt
      rw [List.getElem?_eq_getElem hil] at hne
      have hne2 : map[i] ≠ pn := fun h => hne (by rw [h])
      simp only [hne2, if_false]
      exact ih (i + 1) pl (by omega) (by omega) hpl (fun j hj1 hj2 => hbefore j (by omega) hj2)

theorem scan_for_in_range (map : List Nat) (pn : Nat) (hpos : 0 < map.length) :
    ∀ (n i : Nat), i + n ≤ map.length → ∃ r, scan_for map pn n i = some r ∧ r < map.length := by
  intro n
  induction n with
  | zero => intro i _; exact ⟨0, rfl, hpos⟩
  | succ n ih =>
    intro i hi
    unfold scan_for
    have hil : i < map.length := by omega
    rw [List.getElem?_eq_getElem hil]
    by_cases hc : map[i] = pn
    · exact ⟨i, by simp [hc], hil⟩
    · simp only [hc, if_false]
      exact ih (i + 1) (by omega)

theorem count_one_unique (l : List Nat) (m : Nat) :
    l.count m = 1 → ∀ i j : Nat, l[i]? = some m → l[j]? = some m → i = j := by
  induction l with
  | nil => intro h; simp at h
  | cons a t ih =>
    intro h i j hi hj
    by_cases ha : a = m
    · subst ha
      have ht : t.count a = 0 := by simpa using h
      have hnot : a ∉ t := List.count_eq_zero.mp ht
      cases i with
      | zero =>
        cases j with
        | zero => rfl
        | succ j =>
          simp only [List.getElem?_cons_succ] at hj
          exact absurd (List.getElem?_mem hj) hnot
      | succ i =>
        simp only [List.getElem?_cons_succ] at hi
        exact absurd (List.getElem?_mem hi) hnot
    · have ht : t.count m = 1 := by
        rw [List.count_cons_of_ne (Ne.symm ha)] at h; exact h
      cases i with
      | zero => simp at hi; exact absurd hi ha
      | succ i =>
        cases j with
        | zero => simp at hj; exact absurd hj ha
        | succ j =>
          simp only [List.getElem?_cons_succ] at hi hj
          rw [ih ht i j hi hj]


/-! ## The direction switch on an in-grid target -/

theorem read_getD (l : List Nat) (a : Nat) (h : a < l.length) : l[a]? = some (l.getD a 0) := by
  simp [List.getD_eq_getElem?_getD, List.getElem?_eq_getElem h]

theorem case_h_target (K : Goldchase) (hK : K.wellFormed) (g : goldMine_S) (hg : g.wellFormed)
    (found : Bool) (pl : Nat) (hpl : pl < g.map.length) (tl c : Nat)
    (ht : resolved_target K g pl Direction.left = some tl) (hc : g.map[tl]? = some c)
    (hnp : holds_player K c = false) :
    ∃ loc, case_h K g found pl = some loc ∧ (loc.move_requested = true → loc.tl = tl) := by
  obtain ⟨hr, hcol, hlen, hsz, -⟩ := hg
  have hmod := Nat.mod_le pl g.cols
  have hcol0 : g.cols ≠ 0 := by omega
  unfold resolved_target cell_toward at ht
  simp only at ht
  by_cases h1 : 1 ≤ pl % g.cols
  · simp only [h1, if_true] at ht
    have ha : pl - 1 < g.map.length := by omega
    have hread := read_getD g.map (pl - 1) ha
    have htl1 : (pl + (UINT - 1)) % UINT = pl - 1 := by
      simp only [UINT]; omega
    have hok : decide (pl % g.cols > 0) = true := by simpa using h1
    by_cases hm : g.map.getD (pl - 1) 0 ∈ K.participants
    · simp only [hm, if_true] at ht
      by_cases h2 : 2 ≤ pl % g.cols
      · simp only [h2, if_true, Option.some.injEq] at ht
        have htl2 : (pl - 1 + (UINT - 1)) % UINT = pl - 2 := by
          simp only [UINT]; omega
        simp only [case_h, hcol0, if_false, hok, Bool.true_or, if_true, htl1, hread, holds_player_participant K hK _ hm, htl2]
        exact ⟨_, rfl, fun _ => ht⟩
      · simp [h2] at ht
    · simp only [hm, if_false, Option.some.injEq] at ht
      subst ht
      rw [hread] at hc
      simp only [Option.some.injEq] at hc
      simp only [case_h, hcol0, if_false, hok, Bool.true_or, if_true, htl1, hread, hc, hnp, Bool.false_eq_true]
      exact ⟨_, rfl, fun _ => rfl⟩
  · simp [h1] at ht

theorem up_target_eq (pl cols : Nat) (h : pl < 2 ^ 30) :
    (Int.toNat (max ((pl : Int) - (cols : Int)) 0)) % UINT = pl - cols := by
  simp only [UINT]; omega

theorem grid_right (rows cols pl n : Nat) (hpl : pl < rows * cols) (h : pl % cols + n < cols) :
    pl + n < rows * cols := by
  have hc : 0 < cols := by omega
  have h1 : pl / cols < rows := (Nat.div_lt_iff_lt_mul hc).mpr hpl
  have h2 := Nat.div_add_mod pl cols
  have h3 : cols * (pl / cols + 1) ≤ cols * rows := Nat.mul_le_mul_left _ h1
  rw [Nat.mul_comm rows cols]
  rw [Nat.mul_add, Nat.mul_one] at h3
  omega

theorem grid_down (rows cols pl n : Nat) (hc : 0 < cols) (h : pl / cols + n < rows) :
    pl + n * cols < rows * cols := by
  have h2 := Nat.div_add_mod pl cols
  have h4 := Nat.mod_lt pl hc
  have h3 : cols * (pl / cols + n + 1) ≤ cols * rows := Nat.mul_le_mul_left _ h
  rw [Nat.mul_comm rows cols, Nat.mul_comm n cols]
  rw [Nat.mul_add, Nat.mul_add, Nat.mul_one] at h3
  omega

theorem grid_up (cols pl n : Nat) (hc : 0 < cols) (h : n ≤ pl / cols) : n * cols ≤ pl :=
  (Nat.le_div_iff_mul_le hc).mp h


theorem case_l_target (K : Goldchase) (hK : K.wellFormed) (g : goldMine_S) (hg : g.wellFormed)
    (found : Bool) (pl : Nat) (hpl : pl < g.map.length) (tl c : Nat)
    (ht : resolved_target K g pl Direction.right = some tl) (hc : g.map[tl]? = some c)
    (hnp : holds_player K c = false) :
    ∃ loc, case_l K g found pl = some loc ∧ (loc.move_requested = true → loc.tl = tl) := by
  obtain ⟨hr, hcol, hlen, hsz, -⟩ := hg
  have hcol0 : g.cols ≠ 0 := by omega
  unfold resolved_target cell_toward at ht
  simp only at ht
  by_cases h1 : pl % g.cols + 1 < g.cols
  · simp only [h1, if_true] at ht
    have ha : pl + 1 < g.map.length := by
      rw [hlen]; exact grid_right _ _ _ _ (hlen ▸ hpl) h1
    have hread := read_getD g.map (pl + 1) ha
    have htl1 : (pl + 1) % UINT = pl + 1 := by
      simp only [UINT]; omega
    have hok : decide (pl % g.cols < g.cols - 1) = true := by
      simp only [decide_eq_true_eq]; omega
    by_cases hm : g.map.getD (pl + 1) 0 ∈ K.participants
    · simp only [hm, if_true] at ht
      by_cases h2 : pl % g.cols + 2 < g.cols
      · simp only [h2, if_true, Option.some.injEq] at ht
        have hb : pl + 2 < g.map.length := by
          rw [hlen]; exact grid_right _ _ _ _ (hlen ▸ hpl) h2
        have htl2 : (pl + 1 + 1) % UINT = pl + 2 := by
          simp only [UINT]; omega
        simp only [case_l, hcol0, if_false, hok, Bool.true_or, if_true, htl1, hread,
          holds_player_participant K hK _ hm, htl2]
        exact ⟨_, rfl, fun _ => ht⟩
      · simp [h2] at ht
    · simp only [hm, if_false, Option.some.injEq] at ht
      subst ht
      rw [hread] at hc
      simp only [Option.some.injEq] at hc
      simp only [case_l, hcol0, if_false, hok, Bool.true_or, if_true, htl1, hread, hc, hnp,
        Bool.false_eq_true]
      exact ⟨_, rfl, fun _ => rfl⟩
  · simp [h1] at ht

theorem case_j_target (K : Goldchase) (hK : K.wellFormed) (g : goldMine_S) (hg : g.wellFormed)
    (found : Bool) (pl : Nat) (_hpl : pl < g.map.length) (tl c : Nat)
    (ht : resolved_target K g pl Direction.down = some tl) (hc : g.map[tl]? = some c)
    (hnp : holds_player K c = false) :
    ∃ loc, case_j K g found pl = some loc ∧ (loc.move_requested = true → loc.tl = tl) := by
  obtain ⟨hr, hcol, hlen, hsz, -⟩ := hg
  have hrow0 : g.rows ≠ 0 := by omega
  unfold resolved_target cell_toward at ht
  simp only at ht
  by_cases hgo : (decide (pl / g.rows < (g.rows * 2 + 1) % UINT) || found) = true
  · by_cases h1 : pl / g.cols + 1 < g.rows
    · simp only [h1, if_true] at ht
      have ha : pl + 1 * g.cols < g.map.length := by
        rw [hlen]; exact grid_down _ _ _ _ hcol h1
      have hread := read_getD g.map (pl + 1 * g.cols) ha
      have htl1 : (pl + g.cols) % UINT = pl + 1 * g.cols := by
        simp only [UINT]; omega
      by_cases hm : g.map.getD (pl + 1 * g.cols) 0 ∈ K.participants
      · simp only [hm, if_true] at ht
        by_cases h2 : pl / g.cols + 2 < g.rows
        · simp only [h2, if_true, Option.some.injEq] at ht
          have hb : pl + 2 * g.cols < g.map.length := by
            rw [hlen]; exact grid_down _ _ _ _ hcol h2
          have htl2 : (pl + 1 * g.cols + g.cols) % UINT = pl + 2 * g.cols := by
            simp only [UINT]; omega
          simp only [case_j, hrow0, if_false, hgo, if_true, htl1, hread,
            holds_player_participant K hK _ hm, htl2]
          exact ⟨_, rfl, fun _ => ht⟩
        · simp [h2] at ht
      · simp only [hm, if_false, Option.some.injEq] at ht
        subst ht
        rw [hread] at hc
        simp only [Option.some.injEq] at hc
        simp only [case_j, hrow0, if_false, hgo, if_true, htl1, hread, hc, hnp,
          Bool.false_eq_true]
        exact ⟨_, rfl, fun _ => rfl⟩
    · simp [h1] at ht
  · simp only [case_j, hrow0, if_false, hgo, Bool.false_eq_true]
    exact ⟨_, rfl, fun h => by simp at h⟩

theorem case_k_target (K : Goldchase) (hK : K.wellFormed) (g : goldMine_S) (hg : g.wellFormed)
    (found : Bool) (pl : Nat) (hpl : pl < g.map.length) (tl c : Nat)
    (ht : resolved_target K g pl Direction.up = some tl) (hc : g.map[tl]? = some c)
    (hnp : holds_player K c = false) :
    ∃ loc, case_k K g found pl = some loc ∧ (loc.move_requested = true → loc.tl = tl) := by
  obtain ⟨hr, hcol, hlen, hsz, -⟩ := hg
  have hrow0 : g.rows ≠ 0 := by omega
  unfold resolved_target cell_toward at ht
  simp only at ht
  by_cases hgo : (decide (pl / g.rows > 1) || found) = true
  · by_cases h1 : 1 ≤ pl / g.cols
    · simp only [h1, if_true] at ht
      have hle := grid_up _ _ _ hcol h1
      have ha : pl - 1 * g.cols < g.map.length := by omega
      have hread := read_getD g.map (pl - 1 * g.cols) ha
      have htl1 : (Int.toNat (max ((pl : Int) - (g.cols : Int)) 0)) % UINT = pl - 1 * g.cols := by
        rw [up_target_eq pl g.cols (by omega)]; omega
      by_cases hm : g.map.getD (pl - 1 * g.cols) 0 ∈ K.participants
      · simp only [hm, if_true] at ht
        by_cases h2 : 2 ≤ pl / g.cols
        · simp only [h2, if_true, Option.some.injEq] at ht
          have hle2 := grid_up _ _ _ hcol h2
          have htl2 : (pl - 1 * g.cols + (UINT - g.cols % UINT)) % UINT = pl - 2 * g.cols := by
            have : g.cols ≤ pl := by omega
            simp only [UINT]; omega
          simp only [case_k, hrow0, if_false, hgo, if_true, htl1, hread,
            holds_player_participant K hK _ hm, htl2]
          exact ⟨_, rfl, fun _ => ht⟩
        · simp [h2] at ht
      · simp only [hm, if_false, Option.some.injEq] at ht
        subst ht
        rw [hread] at hc
        simp only [Option.some.injEq] at hc
        simp only [case_k, hrow0, if_false, hgo, if_true, htl1, hread, hc, hnp,
          Bool.false_eq_true]
        exact ⟨_, rfl, fun _ => rfl⟩
    · simp [h1] at ht
  · simp only [case_k, hrow0, if_false, hgo, Bool.false_eq_true]
    exact ⟨_, rfl, fun h => by simp at h⟩

/-- When the resolved target of the spec is a cell of the grid that does not
hold a participant, the switch of `controller` runs without fault and, if it
requests a move, requests it to that cell. -/
theorem switch_input_target (K : Goldchase) (hK : K.wellFormed) (g : goldMine_S)
    (hg : g.wellFormed) (found : Bool) (pl : Nat) (hpl : pl < g.map.length) (d : Direction)
    (input : Nat) (hin : input ∈ d.keys) (tl c : Nat)
    (ht : resolved_target K g pl d = some tl) (hc : g.map[tl]? = some c)
    (hnp : holds_player K c = false) :
    ∃ loc, switch_input K input g found pl = some loc ∧
      (loc.move_requested = true → loc.tl = tl) := by
  cases d
  · have h := case_h_target K hK g hg found pl hpl tl c ht hc hnp
    simp only [Direction.keys, List.mem_cons, List.mem_singleton, List.not_mem_nil, or_false] at hin
    rcases hin with e | e <;> subst e <;> simpa [switch_input] using h
  · have h := case_j_target K hK g hg found pl hpl tl c ht hc hnp
    simp only [Direction.keys, List.mem_cons, List.mem_singleton, List.not_mem_nil, or_false] at hin
    rcases hin with e | e <;> subst e <;> simpa [switch_input] using h
  · have h := case_k_target K hK g hg found pl hpl tl c ht hc hnp
    simp only [Direction.keys, List.mem_cons, List.mem_singleton, List.not_mem_nil, or_false] at hin
    rcases hin with e | e <;> subst e <;> simpa [switch_input] using h
  · have h := case_l_target K hK g hg found pl hpl tl c ht hc hnp
    simp only [Direction.keys, List.mem_cons, List.mem_singleton, List.not_mem_nil, or_false] at hin
    rcases hin with e | e <;> subst e <;> simpa [switch_input] using h


/-! ## Rejected and winning moves -/

theorem controller_pl_in_range (K : Goldchase) (g : goldMine_S) (hg : g.wellFormed)
    (p : Process) (pl : Nat) (hpl : controller_pl K g p = some pl) : pl < g.map.length := by
  obtain ⟨hr, hcol, hlen, hsz, -⟩ := hg
  have hpos : 0 < g.map.length := by
    rw [hlen]; exact Nat.mul_pos hr hcol
  unfold controller_pl at hpl
  split at hpl
  · have hn : (g.cols * g.rows) % UINT = g.map.length := by
      rw [hlen, Nat.mul_comm g.cols g.rows]
      apply Nat.mod_eq_of_lt
      simp only [UINT]; omega
    rw [hn] at hpl
    obtain ⟨r, hr1, hr2⟩ := scan_for_in_range g.map (controller_pn K p.player_number) hpos
      g.map.length 0 (by omega)
    rw [hr1] at hpl
    cases hpl
    exact hr2
  · cases hpl
    exact hpos

theorem occupies_controller_pl (K : Goldchase) (hK : K.wellFormed) (g : goldMine_S)
    (hg : g.wellFormed) (p : Process) (pl : Nat) (h : occupies K g p pl) :
    controller_pl K g p = some pl := by
  obtain ⟨h1, h5, hat, hcount⟩ := h
  obtain ⟨hr, hcol, hlen, hsz, -⟩ := hg
  obtain ⟨hmem, hpn⟩ := slot_marker K p.player_number h1 h5
  have hpos := (byteBits_bounds _ (participant_bit K hK _ hmem)).1
  have hlt : pl < g.map.length := by
    rcases Nat.lt_or_ge pl g.map.length with h | h
    · exact h
    · rw [List.getElem?_eq_none h] at hat; cases hat
  have hn : (g.cols * g.rows) % UINT = g.map.length := by
    rw [hlen, Nat.mul_comm g.cols g.rows]
    apply Nat.mod_eq_of_lt
    simp only [UINT]; omega
  unfold controller_pl
  rw [hpn, if_pos hpos, hn]
  apply scan_for_first g.map _ g.map.length 0 pl (Nat.zero_le _) (by omega) hat
  intro j _ hj hjm
  have := count_one_unique g.map _ hcount j pl hjm hat
  omega

/-- C1 (the code departs from it): a participant that has not found the gold
hops left over a neighbour from column 1; the resolved target is off the grid,
yet `controller` moves the marker to the last cell of the row above. -/
theorem controller_hop_left_wraps :
    goldMine_S.wellFormed ⟨2, 2, 12, [0, 0, 8, 4]⟩ ∧
      occupies stdMarkers ⟨2, 2, 12, [0, 0, 8, 4]⟩ ⟨1, false, [], []⟩ 3 ∧
      resolved_target stdMarkers ⟨2, 2, 12, [0, 0, 8, 4]⟩ 3 Direction.left = none ∧
      controller stdMarkers 104 ⟨2, 2, 12, [0, 0, 8, 4]⟩ ⟨1, false, [], []⟩ =
        some (false, ⟨2, 2, 12, [0, 4, 8, 0]⟩, ⟨1, false, [], []⟩) := by
  decide

/-- C2: when the resolved target of a move (the adjacent cell, or the hop-over
cell when the adjacent cell holds a participant) is a cell of the grid that
holds `G_WALL`, `controller` returns with the arena (every cell of the map)
and the process state (`player_found_gold` included) unchanged.  Here `pl` is
the location `controller` computes for the acting participant. -/
theorem controller_wall_target_unchanged (K : Goldchase) (hK : K.wellFormed) (g : goldMine_S)
    (hg : g.wellFormed) (p : Process) (d : Direction) (input : Nat) (hin : input ∈ d.keys)
    (pl tl : Nat) (hpl : controller_pl K g p = some pl)
    (ht : resolved_target K g pl d = some tl) (hw : g.map[tl]? = some K.G_WALL) :
    ∃ e, controller K input g p = some (e, g, p) := by
  have hlt := controller_pl_in_range K g hg p pl hpl
  have hwall : holds_player K K.G_WALL = false :=
    holds_player_other K hK _ (wf_bits K hK).2.2.2.2.2.2.2 (wf_distinct K hK).1
  obtain ⟨loc, hloc, htl⟩ := switch_input_target K hK g hg p.player_found_gold pl hlt d input hin
    tl K.G_WALL ht hw hwall
  have hap : apply_move K (controller_pn K p.player_number) pl loc g p = some (g, p) := by
    unfold apply_move
    by_cases hm : loc.move_requested = true
    · rw [if_pos hm, htl hm, hw]
      simp
    · rw [if_neg hm]
  refine ⟨p.player_found_gold && !loc.player_is_not_going_off_the_map, ?_⟩
  simp only [controller, hpl, hloc, hap]

theorem controller_wall_target_unchanged_witness :
    ∃ e, controller stdMarkers 108 ⟨1, 3, 12, [4, 8, 128]⟩ ⟨1, false, [], []⟩ =
      some (e, ⟨1, 3, 12, [4, 8, 128]⟩, ⟨1, false, [], []⟩) :=
  controller_wall_target_unchanged stdMarkers (by decide) ⟨1, 3, 12, [4, 8, 128]⟩ (by decide)
    ⟨1, false, [], []⟩ Direction.right 108 (by decide) 0 2 (by decide) (by decide) (by decide)


/-- C3: when the acting participant occupies cell `pl` and `controller` accepts
a move whose resolved in-grid target `tl` holds `G_GOLD`, the call returns
with cell `pl` empty, cell `tl` holding the marker of the mover, every other
cell unchanged, `player_found_gold` set, and exactly one win notice among the
notices posted by the call. -/
theorem controller_gold_target_win (K : Goldchase) (hK : K.wellFormed) (g : goldMine_S)
    (hg : g.wellFormed) (p : Process) (d : Direction) (input : Nat) (hin : input ∈ d.keys)
    (pl tl : Nat) (hocc : occupies K g p pl) (ht : resolved_target K g pl d = some tl)
    (hgold : g.map[tl]? = some K.G_GOLD) (hacc : move_accepted K input g p = true) :
    ∃ e g1 p1, controller K input g p = some (e, g1, p1) ∧
      g1.map[pl]? = some 0 ∧
      g1.map[tl]? = some (pn_to_player_bit_mask K p.player_number) ∧
      (∀ j : Nat, j ≠ pl → j ≠ tl → g1.map[j]? = g.map[j]?) ∧
      p1.player_found_gold = true ∧
      ∃ posted, p1.notices = p.notices ++ posted ∧ posted.count Notice.you_won = 1 := by
  have hpl := occupies_controller_pl K hK g hg p pl hocc
  have hlt := controller_pl_in_range K g hg p pl hpl
  obtain ⟨h1, h5, hat, -⟩ := hocc
  obtain ⟨hmem, hpn⟩ := slot_marker K p.player_number h1 h5
  have hbit := participant_bit K hK _ hmem
  have hdist := wf_distinct K hK
  have hgoldp : holds_player K K.G_GOLD = false :=
    holds_player_other K hK _ (wf_bits K hK).1 hdist.2.1
  obtain ⟨loc, hloc, htl⟩ := switch_input_target K hK g hg p.player_found_gold pl hlt d input hin
    tl K.G_GOLD ht hgold hgoldp
  have hreq : loc.move_requested = true := by
    simp only [move_accepted, hpl, hloc, Bool.and_eq_true] at hacc
    exact hacc.1
  have htleq := htl hreq
  have hne : tl ≠ pl := by
    intro h
    rw [h, hat] at hgold
    simp only [Option.some.injEq] at hgold
    rw [hgold] at hmem
    exact hdist.2.1 hmem
  have htlt : tl < g.map.length := by
    rcases Nat.lt_or_ge tl g.map.length with h | h
    · exact h
    · rw [List.getElem?_eq_none h] at hgold; cases hgold
  have hbyte : pn_to_player_bit_mask K p.player_number % UCHAR =
      pn_to_player_bit_mask K p.player_number :=
    Nat.mod_eq_of_lt (by have := (byteBits_bounds _ hbit).2; simp only [UCHAR]; omega)
  have hap : apply_move K (controller_pn K p.player_number) pl loc g p =
      some ({ g with map := (g.map.set pl 0).set tl (pn_to_player_bit_mask K p.player_number) },
        { p with notices := p.notices ++ [Notice.found_real_gold, Notice.you_won],
                 player_found_gold := true }) := by
    unfold apply_move
    rw [if_pos hreq, htleq, hgold]
    simp only [ne_eq, hdist.2.2.2.1, not_false_eq_true, if_true]
    unfold move_player
    rw [hgold]
    simp only [decide_True, if_true, hdist.2.2.2.2.1, decide_False, Bool.false_eq_true, if_false,
      hlt, hpn, hbyte]
  have hrun : controller K input g p = some (true && !loc.player_is_not_going_off_the_map,
      { g with map := (g.map.set pl 0).set tl (pn_to_player_bit_mask K p.player_number) },
      { p with notices := p.notices ++ [Notice.found_real_gold, Notice.you_won],
               player_found_gold := true }) := by
    simp only [controller, hpl, hloc, hap]
  refine ⟨_, _, _, hrun, ?_, ?_, ?_, rfl, ?_⟩
  · show ((g.map.set pl 0).set tl _)[pl]? = some 0
    rw [List.getElem?_set_ne hne, List.getElem?_set_self hlt]
  · show ((g.map.set pl 0).set tl _)[tl]? = some _
    rw [List.getElem?_set_self (by simpa using htlt)]
  · intro j hj1 hj2
    show ((g.map.set pl 0).set tl _)[j]? = g.map[j]?
    rw [List.getElem?_set_ne (Ne.symm hj2), List.getElem?_set_ne (Ne.symm hj1)]
  · exact ⟨[Notice.found_real_gold, Notice.you_won], rfl, by decide⟩

theorem controller_gold_target_win_witness :
    ∃ e g1 p1, controller stdMarkers 106 ⟨3, 3, 4, [0, 0, 0, 0, 0, 4, 0, 0, 1]⟩
        ⟨1, false, [], []⟩ = some (e, g1, p1) ∧
      g1.map[5]? = some 0 ∧
      g1.map[8]? = some (pn_to_player_bit_mask stdMarkers 1) ∧
      (∀ j : Nat, j ≠ 5 → j ≠ 8 → g1.map[j]? = [0, 0, 0, 0, 0, 4, 0, 0, 1][j]?) ∧
      p1.player_found_gold = true ∧
      ∃ posted, p1.notices = [] ++ posted ∧ posted.count Notice.you_won = 1 :=
  controller_gold_target_win stdMarkers (by decide) ⟨3, 3, 4, [0, 0, 0, 0, 0, 4, 0, 0, 1]⟩
    (by decide) ⟨1, false, [], []⟩ Direction.down 106 (by decide) 5 8 (by decide) (by decide)
    (by decide) (by decide)


/-! ## Joining -/

set_option maxRecDepth 1000000 in
theorem mask_scan_test : ∀ m, m < 256 → ∀ b ∈ byteBits,
    (b &&& (UINT - 1 - m) != 0) = decide (m &&& b = 0) := by
  decide

theorem slot_free_iff (K : Goldchase) (hK : K.wellFormed) (m : Nat) (hm : m < UCHAR) (k : Nat)
    (h1 : 1 ≤ k) (h5 : k ≤ 5) :
    slot_free K m k = decide (m &&& pn_to_player_bit_mask K k = 0) := by
  have hb := participant_bit K hK _ (slot_marker K k h1 h5).1
  exact mask_scan_test m (by simpa [UCHAR] using hm) _ hb

/-- C4: the slot scan of `run_subsequent_player_init_routine` succeeds with
`player_number` the smallest slot `k` in 1..5 whose bit is not set in the
mask; when the bits of all five slots are set it fails, reporting
`error_max_number_of_players_reached`; in both cases the arena, and so the
mask, is returned unchanged. -/
theorem slot_scan_lowest_free (K : Goldchase) (hK : K.wellFormed) (g : goldMine_S)
    (hb : g.players < UCHAR) (p : Process) :
    (∀ k, 1 ≤ k → k ≤ 5 → g.players &&& pn_to_player_bit_mask K k = 0 →
        (∀ j < k, 1 ≤ j → g.players &&& pn_to_player_bit_mask K j ≠ 0) →
        run_subsequent_player_init_routine K g p = (true, g, { p with player_number := k })) ∧
      ((∀ k ∈ [1, 2, 3, 4, 5], g.players &&& pn_to_player_bit_mask K k ≠ 0) →
        run_subsequent_player_init_routine K g p =
          (false, g, { p with player_number := 6,
                              errors := p.errors ++
                                [ERROR_CODE_E.error_max_number_of_players_reached] })) := by
  have e1 := slot_free_iff K hK g.players hb 1 (by omega) (by omega)
  have e2 := slot_free_iff K hK g.players hb 2 (by omega) (by omega)
  have e3 := slot_free_iff K hK g.players hb 3 (by omega) (by omega)
  have e4 := slot_free_iff K hK g.players hb 4 (by omega) (by omega)
  have e5 := slot_free_iff K hK g.players hb 5 (by omega) (by omega)
  constructor
  · intro k h1 h5 hfree hlow
    have hk : k = 1 ∨ k = 2 ∨ k = 3 ∨ k = 4 ∨ k = 5 := by omega
    rcases hk with h | h | h | h | h <;> subst h
    · simp only [run_subsequent_player_init_routine, e1, hfree, decide_True, if_true]
    · have l1 := hlow 1 (by omega) (by omega)
      simp only [run_subsequent_player_init_routine, e1, e2, hfree, l1, decide_True, decide_False,
        if_true, Bool.false_eq_true, if_false]
    · have l1 := hlow 1 (by omega) (by omega)
      have l2 := hlow 2 (by omega) (by omega)
      simp only [run_subsequent_player_init_routine, e1, e2, e3, hfree, l1, l2, decide_True,
        decide_False, if_true, Bool.false_eq_true, if_false]
    · have l1 := hlow 1 (by omega) (by omega)
      have l2 := hlow 2 (by omega) (by omega)
      have l3 := hlow 3 (by omega) (by omega)
      simp only [run_subsequent_player_init_routine, e1, e2, e3, e4, hfree, l1, l2, l3,
        decide_True, decide_False, if_true, Bool.false_eq_true, if_false]
    · have l1 := hlow 1 (by omega) (by omega)
      have l2 := hlow 2 (by omega) (by omega)
      have l3 := hlow 3 (by omega) (by omega)
      have l4 := hlow 4 (by omega) (by omega)
      simp only [run_subsequent_player_init_routine, e1, e2, e3, e4, e5, hfree, l1, l2, l3, l4,
        decide_True, decide_False, if_true, Bool.false_eq_true, if_false]
  · intro hall
    have l1 := hall 1 (by simp)
    have l2 := hall 2 (by simp)
    have l3 := hall 3 (by simp)
    have l4 := hall 4 (by simp)
    have l5 := hall 5 (by simp)
    simp only [run_subsequent_player_init_routine, e1, e2, e3, e4, e5, l1, l2, l3, l4, l5,
      decide_False, Bool.false_eq_true, if_false]

theorem slot_scan_lowest_free_witness :
    run_subsequent_player_init_routine stdMarkers ⟨3, 3, 12, [0, 0, 0, 0, 4, 8, 0, 0, 1]⟩
        ⟨2, false, [], []⟩ =
      (true, ⟨3, 3, 12, [0, 0, 0, 0, 4, 8, 0, 0, 1]⟩, ⟨3, false, [], []⟩) ∧
    run_subsequent_player_init_routine stdMarkers ⟨1, 1, 124, [0]⟩ ⟨2, false, [], []⟩ =
      (false, ⟨1, 1, 124, [0]⟩,
        ⟨6, false, [], [ERROR_CODE_E.error_max_number_of_players_reached]⟩) :=
  ⟨(slot_scan_lowest_free stdMarkers (by decide) ⟨3, 3, 12, [0, 0, 0, 0, 4, 8, 0, 0, 1]⟩
      (by decide) ⟨2, false, [], []⟩).1 3 (by decide) (by decide) (by decide) (by decide),
    (slot_scan_lowest_free stdMarkers (by decide) ⟨1, 1, 124, [0]⟩ (by decide)
      ⟨2, false, [], []⟩).2 (by decide)⟩

/-! ## Teardown -/

theorem mask_reset_testBit (m b : Nat) (hm : m < 256) (hb : b < 256) (i : Nat) :
    ((m &&& (UINT - 1 - b)) % UCHAR).testBit i = (m.testBit i && !b.testBit i) := by
  have e : UINT - 1 - b = 2 ^ 32 - (b + 1) := by simp only [UINT]; omega
  rw [e, UCHAR, Nat.testBit_mod_two_pow, Nat.testBit_and,
    Nat.testBit_two_pow_sub_succ (by omega : b < 2 ^ 32)]
  by_cases h8 : i < 8
  · have h32 : i < 32 := by omega
    simp [h8, h32]
  · have : m.testBit i = false := by
      apply Nat.testBit_lt_two_pow
      calc m < 2 ^ 8 := hm
        _ ≤ 2 ^ i := Nat.pow_le_pow_right (by omega) (by omega)
    simp [h8, this]

set_option maxRecDepth 1000000 in
theorem mask_reset_count : ∀ m, m < 256 → ∀ b ∈ byteBits,
    (m &&& b ≠ 0 → bits_set ((m &&& (UINT - 1 - b)) % UCHAR) + 1 = bits_set m) ∧
      (m = b → (m &&& (UINT - 1 - b)) % UCHAR = 0) := by
  decide

theorem byteBits_exponent : ∀ b ∈ byteBits, ∃ e, e < 8 ∧ b = 2 ^ e := by decide

theorem testBit_of_and_two_pow (m e : Nat) (h : m &&& 2 ^ e ≠ 0) : m.testBit e = true := by
  by_contra hf
  apply h
  apply Nat.eq_of_testBit_eq
  intro i
  rw [Nat.testBit_and, Nat.testBit_two_pow, Nat.zero_testBit]
  by_cases hei : e = i
  · subst hei
    simp [hf]
  · simp [hei]

theorem mask_reset_other (m b b2 : Nat) (hm : m < 256) (hb : b ∈ byteBits) (hb2 : b2 ∈ byteBits)
    (hne : b2 ≠ b) (hset : m &&& b2 ≠ 0) : (m &&& (UINT - 1 - b)) % UCHAR ≠ 0 := by
  obtain ⟨e, -, he⟩ := byteBits_exponent b hb
  obtain ⟨e2, -, he2⟩ := byteBits_exponent b2 hb2
  subst he he2
  have h1 := testBit_of_and_two_pow m e2 hset
  have h2 := mask_reset_testBit m (2 ^ e) hm (byteBits_bounds _ hb).2 e2
  have hee : e ≠ e2 := fun h => hne (by rw [h])
  rw [h1, Nat.testBit_two_pow] at h2
  simp only [hee, decide_False, Bool.not_false, Bool.and_self] at h2
  intro h0
  rw [h0, Nat.zero_testBit] at h2
  cases h2

theorem clear_first_at (map : List Nat) (pn : Nat) :
    ∀ (n i pl : Nat), i ≤ pl → pl < i + n → map[pl]? = some pn →
      (∀ j : Nat, i ≤ j → j < pl → map[j]? ≠ some pn) →
      clear_first map pn n i = some (map.set pl 0) := by
  intro n
  induction n with
  | zero => intro i pl h1 h2; omega
  | succ n ih =>
    intro i pl h1 h2 hpl hbefore
    unfold clear_first
    by_cases hi : i = pl
    · subst hi
      simp [hpl]
    · have hlt : i < pl := by omega
      have hlen : pl < map.length := by
        rcases Nat.lt_or_ge pl map.length with h | h
        · exact h
        · rw [List.getElem?_eq_none h] at hpl; cases hpl
      have hil : i < map.length := by omega
      rw [List.getElem?_eq_getElem hil]
      have hne := hbefore i (Nat.le_refl i) hlt
      rw [List.getElem?_eq_getElem hil] at hne
      have hne2 : map[i] ≠ pn := fun h => hne (by rw [h])
      simp only [hne2, if_false]
      exact ih (i + 1) pl (by omega) (by omega) hpl (fun j hj1 hj2 => hbefore j (by omega) hj2)

theorem clear_first_total (map : List Nat) (pn : Nat) :
    ∀ (n i : Nat), i + n ≤ map.length → ∃ m, clear_first map pn n i = some m := by
  intro n
  induction n with
  | zero => intro i _; exact ⟨map, rfl⟩
  | succ n ih =>
    intro i hi
    unfold clear_first
    have hil : i < map.length := by omega
    rw [List.getElem?_eq_getElem hil]
    by_cases hc : map[i] = pn
    · exact ⟨map.set i 0, by simp [hc]⟩
    · simp only [hc, if_false]
      exact ih (i + 1) (by omega)

theorem scan_bound (g : goldMine_S) (hg : g.wellFormed) :
    (g.cols * g.rows) % UINT = g.map.length := by
  obtain ⟨-, -, hlen, hsz, -⟩ := hg
  rw [hlen, Nat.mul_comm g.cols g.rows]
  apply Nat.mod_eq_of_lt
  simp only [UINT]; omega

theorem slot_marker_inj (K : Goldchase) (hK : K.wellFormed) (q n : Nat) (hq1 : 1 ≤ q)
    (hq5 : q ≤ 5) (hn1 : 1 ≤ n) (hn5 : n ≤ 5)
    (h : pn_to_player_bit_mask K q = pn_to_player_bit_mask K n) : q = n := by
  have hnd := hK.2.1
  have c1 : q = 1 ∨ q = 2 ∨ q = 3 ∨ q = 4 ∨ q = 5 := by omega
  have c2 : n = 1 ∨ n = 2 ∨ n = 3 ∨ n = 4 ∨ n = 5 := by omega
  simp only [Goldchase.markers, List.nodup_cons, List.mem_cons, List.mem_singleton, not_or,
    List.not_mem_nil, or_false, List.nodup_nil, and_true, not_false_eq_true] at hnd
  rcases c1 with c | c | c | c | c <;> rcases c2 with e | e | e | e | e <;>
    rw [c, e] at h ⊢ <;> simp only [pn_to_player_bit_mask] at h <;>
    first
      | rfl
      | (exfalso; simp_all)

theorem reset_other_nonzero (K : Goldchase) (hK : K.wellFormed) (g : goldMine_S)
    (hg : g.wellFormed) (p : Process) (h1 : 1 ≤ p.player_number) (h5 : p.player_number ≤ 5)
    (hother : ∃ q ∈ [1, 2, 3, 4, 5], q ≠ p.player_number ∧
      g.players &&& pn_to_player_bit_mask K q ≠ 0) :
    (reset_player_bit K p.player_number g).players ≠ 0 := by
  have hm : g.players < 256 := by simpa [UCHAR] using hg.2.2.2.2
  have hb := participant_bit K hK _ (slot_marker K p.player_number h1 h5).1
  obtain ⟨q, hq, hqne, hqset⟩ := hother
  have hq15 : 1 ≤ q ∧ q ≤ 5 := by
    simp only [List.mem_cons, List.mem_singleton, List.not_mem_nil, or_false] at hq
    omega
  have hqb := participant_bit K hK _ (slot_marker K q hq15.1 hq15.2).1
  exact mask_reset_other _ _ _ hm hb hqb
    (fun heq => hqne (slot_marker_inj K hK q _ hq15.1 hq15.2 h1 h5 heq)) hqset

/-- C5 (the code departs from it): the host has taken slot 1 but not yet set
its bit when a joiner runs the slot scan; both processes then enter
`main_loop` holding slot 1. -/
theorem joiner_scan_before_host_bit :
    ((host_session ⟨1, 4, 0, [0, 0, 0, 0]⟩ 1).run stdMarkers
        [Event.join 1, Event.place 0 0, Event.place 1 1]).map Session.live_slots =
      some [1, 1] := by
  decide

/-- C6: when the departing participant has a slot in 1..5 with its bit set in
the mask, occupies exactly one cell, and another slot has its bit set,
`clean_up` returns with the mask equal to the old mask with only that bit
cleared (one bit fewer set), the cell of the participant emptied and every
other cell unchanged; the process state and the names are as before. -/
theorem clean_up_non_last (K : Goldchase) (hK : K.wellFormed) (g : goldMine_S)
    (hg : g.wellFormed) (p : Process) (os : Names) (pl : Nat) (hocc : occupies K g p pl)
    (hbit : g.players &&& pn_to_player_bit_mask K p.player_number ≠ 0)
    (hother : ∃ q ∈ [1, 2, 3, 4, 5], q ≠ p.player_number ∧
      g.players &&& pn_to_player_bit_mask K q ≠ 0) :
    ∃ g1, clean_up K g p os = some (g1, p, os) ∧
      (∀ i, g1.players.testBit i =
        (g.players.testBit i && !(pn_to_player_bit_mask K p.player_number).testBit i)) ∧
      bits_set g1.players + 1 = bits_set g.players ∧
      g1.map[pl]? = some 0 ∧
      (∀ j : Nat, j ≠ pl → g1.map[j]? = g.map[j]?) := by
  have hn := scan_bound g hg
  obtain ⟨h1, h5, hat, hcount⟩ := hocc
  have hmem := (slot_marker K p.player_number h1 h5).1
  have hb := participant_bit K hK _ hmem
  have hm : g.players < 256 := by simpa [UCHAR] using hg.2.2.2.2
  have hlt : pl < g.map.length := by
    rcases Nat.lt_or_ge pl g.map.length with h | h
    · exact h
    · rw [List.getElem?_eq_none h] at hat; cases hat
  have hne0 := reset_other_nonzero K hK g hg p h1 h5 hother
  have hclear : clear_first g.map (pn_to_player_bit_mask K p.player_number) g.map.length 0 =
      some (g.map.set pl 0) := by
    apply clear_first_at g.map _ g.map.length 0 pl (Nat.zero_le _) (by omega) hat
    intro j _ hj hjm
    have := count_one_unique g.map _ hcount j pl hjm hat
    omega
  have hplayer : clean_up_player K g p =
      some { reset_player_bit K p.player_number g with map := g.map.set pl 0 } := by
    unfold clean_up_player
    rw [if_pos ⟨by omega, by omega⟩]
    show (match clear_first g.map _ ((g.cols * g.rows) % UINT) 0 with
      | none => none
      | some m => some { reset_player_bit K p.player_number g with map := m }) = _
    rw [hn, hclear]
  refine ⟨{ reset_player_bit K p.player_number g with map := g.map.set pl 0 }, ?_, ?_, ?_, ?_, ?_⟩
  · unfold clean_up
    rw [hplayer]
    have : ¬ ((reset_player_bit K p.player_number g).players = 0) := hne0
    simp only [this, decide_False, Bool.false_eq_true, if_false]
  · intro i
    exact mask_reset_testBit _ _ hm (byteBits_bounds _ hb).2 i
  · exact (mask_reset_count g.players hm _ hb).1 hbit
  · show (g.map.set pl 0)[pl]? = some 0
    rw [List.getElem?_set_self hlt]
  · intro j hj
    show (g.map.set pl 0)[j]? = g.map[j]?
    rw [List.getElem?_set_ne (Ne.symm hj)]


theorem clean_up_non_last_witness :
    ∃ g1, clean_up stdMarkers ⟨1, 4, 12, [4, 8, 0, 0]⟩ ⟨1, false, [], []⟩ ⟨true, true⟩ =
        some (g1, ⟨1, false, [], []⟩, ⟨true, true⟩) ∧
      (∀ i, g1.players.testBit i =
        ((12).testBit i && !(pn_to_player_bit_mask stdMarkers 1).testBit i)) ∧
      bits_set g1.players + 1 = bits_set 12 ∧
      g1.map[0]? = some 0 ∧
      (∀ j : Nat, j ≠ 0 → g1.map[j]? = [4, 8, 0, 0][j]?) :=
  clean_up_non_last stdMarkers (by decide) ⟨1, 4, 12, [4, 8, 0, 0]⟩ (by decide)
    ⟨1, false, [], []⟩ ⟨true, true⟩ 0 (by decide) (by decide) (by decide)

/-- C7: for a departing participant with a slot in 1..5, `clean_up` unlinks the
semaphore and the shared-memory segment exactly when the mask is empty once
the bit of the participant has been cleared: the last participant (the mask
held only its bit) destroys both, and a teardown that leaves the bit of
another slot set leaves both in place. -/
theorem clean_up_unlinks_iff_last (K : Goldchase) (hK : K.wellFormed) (g : goldMine_S)
    (hg : g.wellFormed) (p : Process) (h1 : 1 ≤ p.player_number) (h5 : p.player_number ≤ 5) :
    ∃ g1 p1 os1, clean_up K g p ⟨true, true⟩ = some (g1, p1, os1) ∧
      (os1 = ⟨false, false⟩ ↔ (reset_player_bit K p.player_number g).players = 0) ∧
      (os1 = ⟨true, true⟩ ↔ (reset_player_bit K p.player_number g).players ≠ 0) ∧
      (g.players = pn_to_player_bit_mask K p.player_number → os1 = ⟨false, false⟩) ∧
      ((∃ q ∈ [1, 2, 3, 4, 5], q ≠ p.player_number ∧
          g.players &&& pn_to_player_bit_mask K q ≠ 0) → os1 = ⟨true, true⟩) := by
  have hn := scan_bound g hg
  have hm : g.players < 256 := by simpa [UCHAR] using hg.2.2.2.2
  have hb := participant_bit K hK _ (slot_marker K p.player_number h1 h5).1
  obtain ⟨m, hclear⟩ := clear_first_total g.map (pn_to_player_bit_mask K p.player_number)
    g.map.length 0 (by omega)
  have hplayer : clean_up_player K g p =
      some { reset_player_bit K p.player_number g with map := m } := by
    unfold clean_up_player
    rw [if_pos ⟨by omega, by omega⟩]
    show (match clear_first g.map _ ((g.cols * g.rows) % UINT) 0 with
      | none => none
      | some m => some { reset_player_bit K p.player_number g with map := m }) = _
    rw [hn, hclear]
  by_cases hz : (reset_player_bit K p.player_number g).players = 0
  · refine ⟨{ reset_player_bit K p.player_number g with map := m },
      { p with errors := p.errors ++ [] ++ [] }, ⟨false, false⟩, ?_, ?_, ?_, ?_, ?_⟩
    · unfold clean_up
      rw [hplayer]
      simp only [hz, decide_True, if_true]
    · simp [hz]
    · simp [hz]
    · intro _; rfl
    · intro hother
      exact absurd hz (reset_other_nonzero K hK g hg p h1 h5 hother)
  · refine ⟨{ reset_player_bit K p.player_number g with map := m }, p, ⟨true, true⟩,
      ?_, ?_, ?_, ?_, ?_⟩
    · unfold clean_up
      rw [hplayer]
      simp only [hz, decide_False, Bool.false_eq_true, if_false]
    · simp [hz]
    · simp [hz]
    · intro hlast
      exact absurd ((mask_reset_count g.players hm _ hb).2 hlast) hz
    · intro _; rfl

theorem clean_up_unlinks_iff_last_witness :
    ∃ g1 p1 os1, clean_up stdMarkers ⟨1, 4, 4, [4, 0, 0, 128]⟩ ⟨1, false, [], []⟩ ⟨true, true⟩ =
        some (g1, p1, os1) ∧
      (os1 = ⟨false, false⟩ ↔
        (reset_player_bit stdMarkers 1 ⟨1, 4, 4, [4, 0, 0, 128]⟩).players = 0) ∧
      (os1 = ⟨true, true⟩ ↔
        (reset_player_bit stdMarkers 1 ⟨1, 4, 4, [4, 0, 0, 128]⟩).players ≠ 0) ∧
      (4 = pn_to_player_bit_mask stdMarkers 1 → os1 = ⟨false, false⟩) ∧
      ((∃ q ∈ [1, 2, 3, 4, 5], q ≠ 1 ∧
          4 &&& pn_to_player_bit_mask stdMarkers q ≠ 0) → os1 = ⟨true, true⟩) :=
  clean_up_unlinks_iff_last stdMarkers (by decide) ⟨1, 4, 4, [4, 0, 0, 128]⟩ (by decide)
    ⟨1, false, [], []⟩ (by decide) (by decide)

/-! ## Moves that break the invariants of the arena -/

/-- C8 (the code departs from it): participant 1 hops right over participant 2
onto the cell of participant 3; the marker of participant 3 is overwritten
although its bit stays set in the mask. -/
theorem controller_hop_overwrites_participant :
    goldMine_S.wellFormed ⟨1, 4, 28, [4, 8, 16, 0]⟩ ∧
      one_cell_each stdMarkers ⟨1, 4, 28, [4, 8, 16, 0]⟩ ∧
      controller stdMarkers 108 ⟨1, 4, 28, [4, 8, 16, 0]⟩ ⟨1, false, [], []⟩ =
        some (false, ⟨1, 4, 28, [0, 8, 4, 0]⟩, ⟨1, false, [], []⟩) ∧
      ¬ one_cell_each stdMarkers ⟨1, 4, 28, [0, 8, 4, 0]⟩ := by
  decide

/-- C9 (the code departs from it): after participant 1 has hopped onto the
cell of participant 3, participant 3 is not on the map, `controller` takes
cell 0 for its location and its next move empties cell 0, which held a
wall. -/
theorem run_clears_wall :
    ((host_session ⟨2, 4, 0, [128, 0, 0, 0, 0, 0, 0, 0]⟩ 2).run stdMarkers
        [Event.place 0 4, Event.join 1, Event.place 1 5, Event.join 2, Event.place 2 6,
          Event.key 0 108, Event.key 2 108]).map (fun s => s.gm.map) =
      some [0, 16, 0, 0, 0, 8, 4, 0] ∧
    wall_cells stdMarkers [128, 0, 0, 0, 0, 0, 0, 0] ≠
      wall_cells stdMarkers [0, 16, 0, 0, 0, 8, 4, 0] := by
  decide

/-- C10 (the code departs from it): on a 2x2 arena the participant in row 1
asks to move up; the target, cell 0, is on the grid and empty, yet
`controller` rejects the move and leaves the arena as it was. -/
theorem controller_up_from_row_one_rejected :
    goldMine_S.wellFormed ⟨2, 2, 4, [0, 0, 4, 0]⟩ ∧
      occupies stdMarkers ⟨2, 2, 4, [0, 0, 4, 0]⟩ ⟨1, false, [], []⟩ 2 ∧
      resolved_target stdMarkers ⟨2, 2, 4, [0, 0, 4, 0]⟩ 2 Direction.up = some 0 ∧
      [0, 0, 4, 0][0]? = some 0 ∧
      move_accepted stdMarkers 107 ⟨2, 2, 4, [0, 0, 4, 0]⟩ ⟨1, false, [], []⟩ = false ∧
      controller stdMarkers 107 ⟨2, 2, 4, [0, 0, 4, 0]⟩ ⟨1, false, [], []⟩ =
        some (false, ⟨2, 2, 4, [0, 0, 4, 0]⟩, ⟨1, false, [], []⟩) := by
  decide

/-! ## The 3x3 scenario -/

theorem holds_player_zero (K : Goldchase) : holds_player K 0 = false := by
  simp [holds_player]

theorem marker_facts (K : Goldchase) (hK : K.wellFormed) :
    K.G_GOLD ≠ 0 ∧ K.G_FOOL ≠ 0 ∧ K.G_WALL ≠ 0 := by
  have hb := wf_bits K hK
  have h1 := (byteBits_bounds _ hb.1).1
  have h2 := (byteBits_bounds _ hb.2.1).1
  have h3 := (byteBits_bounds _ hb.2.2.2.2.2.2.2).1
  omega

/-- C11: on a 3x3 arena without walls, with the real gold at index 8 and the
participant at index 0 not having found the gold, two moves right are accepted
(index 1, then index 2), a third is rejected and changes nothing, two moves
down lead to index 5 and to index 8; the process state, `player_found_gold`
included, is unchanged by the first four calls, and the fifth sets
`player_found_gold` and posts the win notice. -/
theorem scenario_three_by_three (K : Goldchase) (hK : K.wellFormed) (m : Nat) (p : Process)
    (h1 : 1 ≤ p.player_number) (h5 : p.player_number ≤ 5) (hf : p.player_found_gold = false) :
    controller K 108
        ⟨3, 3, m, [pn_to_player_bit_mask K p.player_number, 0, 0, 0, 0, 0, 0, 0, K.G_GOLD]⟩ p =
      some (false,
        ⟨3, 3, m, [0, pn_to_player_bit_mask K p.player_number, 0, 0, 0, 0, 0, 0, K.G_GOLD]⟩, p) ∧
    controller K 108
        ⟨3, 3, m, [0, pn_to_player_bit_mask K p.player_number, 0, 0, 0, 0, 0, 0, K.G_GOLD]⟩ p =
      some (false,
        ⟨3, 3, m, [0, 0, pn_to_player_bit_mask K p.player_number, 0, 0, 0, 0, 0, K.G_GOLD]⟩, p) ∧
    controller K 108
        ⟨3, 3, m, [0, 0, pn_to_player_bit_mask K p.player_number, 0, 0, 0, 0, 0, K.G_GOLD]⟩ p =
      some (false,
        ⟨3, 3, m, [0, 0, pn_to_player_bit_mask K p.player_number, 0, 0, 0, 0, 0, K.G_GOLD]⟩, p) ∧
    controller K 106
        ⟨3, 3, m, [0, 0, pn_to_player_bit_mask K p.player_number, 0, 0, 0, 0, 0, K.G_GOLD]⟩ p =
      some (false,
        ⟨3, 3, m, [0, 0, 0, 0, 0, pn_to_player_bit_mask K p.player_number, 0, 0, K.G_GOLD]⟩, p) ∧
    controller K 106
        ⟨3, 3, m, [0, 0, 0, 0, 0, pn_to_player_bit_mask K p.player_number, 0, 0, K.G_GOLD]⟩ p =
      some (false,
        ⟨3, 3, m, [0, 0, 0, 0, 0, 0, 0, 0, pn_to_player_bit_mask K p.player_number]⟩,
        { p with notices := p.notices ++ [Notice.found_real_gold, Notice.you_won],
                 player_found_gold := true }) := by
  obtain ⟨hmem, hpn⟩ := slot_marker K p.player_number h1 h5
  have hbit := participant_bit K hK _ hmem
  have hP0 : pn_to_player_bit_mask K p.player_number ≠ 0 := by
    have := (byteBits_bounds _ hbit).1; omega
  have hP0' : (0 : Nat) ≠ pn_to_player_bit_mask K p.player_number := Ne.symm hP0
  have hPpos : pn_to_player_bit_mask K p.player_number > 0 := (byteBits_bounds _ hbit).1
  have hbyte : pn_to_player_bit_mask K p.player_number % UCHAR =
      pn_to_player_bit_mask K p.player_number :=
    Nat.mod_eq_of_lt (by have := (byteBits_bounds _ hbit).2; simp only [UCHAR]; omega)
  have hdist := wf_distinct K hK
  obtain ⟨hG0, hF0, hW0⟩ := marker_facts K hK
  have hgoldp : holds_player K K.G_GOLD = false :=
    holds_player_other K hK _ (wf_bits K hK).1 hdist.2.1
  have hz := holds_player_zero K
  have u1 : (0 + 1) % UINT = 1 := by simp only [UINT]; omega
  have u2 : (1 + 1) % UINT = 2 := by simp only [UINT]; omega
  have u5 : (2 + 3) % UINT = 5 := by simp only [UINT]; omega
  have u8 : (5 + 3) % UINT = 8 := by simp only [UINT]; omega
  have u9 : (3 * 3) % UINT = 9 := by simp only [UINT]; omega
  have u7 : (3 * 2 + 1) % UINT = 7 := by simp only [UINT]; omega
  refine ⟨?_, ?_, ?_, ?_, ?_⟩
  · simp [controller, controller_pl, hpn, hPpos, u9, scan_for, switch_input, case_l, hf, u1, hz,
      apply_move, Ne.symm hW0, move_player, Ne.symm hG0, Ne.symm hF0, hbyte]
  · simp [controller, controller_pl, hpn, hPpos, u9, scan_for, hP0', switch_input, case_l, hf, u2,
      hz, apply_move, Ne.symm hW0, move_player, Ne.symm hG0, Ne.symm hF0, hbyte]
  · simp [controller, controller_pl, hpn, hPpos, u9, scan_for, hP0', switch_input, case_l, hf,
      apply_move]
  · simp [controller, controller_pl, hpn, hPpos, u9, scan_for, hP0', switch_input, case_j, hf, u5,
      u7, hz, apply_move, Ne.symm hW0, move_player, Ne.symm hG0, Ne.symm hF0, hbyte]
  · simp [controller, controller_pl, hpn, hPpos, u9, scan_for, hP0', switch_input, case_j, hf, u8,
      u7, hgoldp, apply_move, hdist.2.2.2.1, hdist.2.2.2.2.1, move_player, hbyte]

theorem scenario_three_by_three_witness :
    controller stdMarkers 108 ⟨3, 3, 4, [4, 0, 0, 0, 0, 0, 0, 0, 1]⟩ ⟨1, false, [], []⟩ =
      some (false, ⟨3, 3, 4, [0, 4, 0, 0, 0, 0, 0, 0, 1]⟩, ⟨1, false, [], []⟩) ∧
    controller stdMarkers 108 ⟨3, 3, 4, [0, 4, 0, 0, 0, 0, 0, 0, 1]⟩ ⟨1, false, [], []⟩ =
      some (false, ⟨3, 3, 4, [0, 0, 4, 0, 0, 0, 0, 0, 1]⟩, ⟨1, false, [], []⟩) ∧
    controller stdMarkers 108 ⟨3, 3, 4, [0, 0, 4, 0, 0, 0, 0, 0, 1]⟩ ⟨1, false, [], []⟩ =
      some (false, ⟨3, 3, 4, [0, 0, 4, 0, 0, 0, 0, 0, 1]⟩, ⟨1, false, [], []⟩) ∧
    controller stdMarkers 106 ⟨3, 3, 4, [0, 0, 4, 0, 0, 0, 0, 0, 1]⟩ ⟨1, false, [], []⟩ =
      some (false, ⟨3, 3, 4, [0, 0, 0, 0, 0, 4, 0, 0, 1]⟩, ⟨1, false, [], []⟩) ∧
    controller stdMarkers 106 ⟨3, 3, 4, [0, 0, 0, 0, 0, 4, 0, 0, 1]⟩ ⟨1, false, [], []⟩ =
      some (false, ⟨3, 3, 4, [0, 0, 0, 0, 0, 0, 0, 0, 4]⟩,
        ⟨1, true, [Notice.found_real_gold, Notice.you_won], []⟩) :=
  scenario_three_by_three stdMarkers (by decide) 4 ⟨1, false, [], []⟩ (by decide) (by decide)
    rfl

/-! ## Cell addressing -/

/-- C12: for positive dimensions whose cell count fits the 32-bit index, the
addressing `index_of` of `slurp_map` is a bijection from the in-range pairs
(row, column) onto the indices below `rows * cols`, with inverse
`i ↦ (i / cols, i % cols)`: it maps in-range pairs into the range, the inverse
maps the range to in-range pairs, and the two compositions are the identity
(so `index_of` is injective and onto). -/
theorem index_of_bijection (rows cols : Nat) (hr : 1 ≤ rows) (hc : 1 ≤ cols)
    (hfit : rows * cols ≤ 2 ^ 31) :
    (∀ r c, r < rows → c < cols →
        index_of cols r c < rows * cols ∧ index_of cols r c / cols = r ∧
          index_of cols r c % cols = c) ∧
      (∀ i, i < rows * cols →
        i / cols < rows ∧ i % cols < cols ∧ index_of cols (i / cols) (i % cols) = i) ∧
      (∀ r c r2 c2, r < rows → c < cols → r2 < rows → c2 < cols →
        index_of cols r c = index_of cols r2 c2 → r = r2 ∧ c = c2) ∧
      (∀ i, i < rows * cols → ∃ r c, r < rows ∧ c < cols ∧ index_of cols r c = i) := by
  have hrows : 0 < rows := hr
  have hpos : 0 < cols := hc
  have hfwd : ∀ r c, r < rows → c < cols →
      index_of cols r c < rows * cols ∧ index_of cols r c / cols = r ∧
        index_of cols r c % cols = c := by
    intro r c hrr hcc
    have h1 : (r + 1) * cols ≤ rows * cols := Nat.mul_le_mul_right _ hrr
    have h2 : r * cols + c < rows * cols := by
      rw [Nat.add_mul, Nat.one_mul] at h1; omega
    have h3 : index_of cols r c = r * cols + c := by
      unfold index_of
      apply Nat.mod_eq_of_lt
      simp only [UINT]; omega
    rw [h3]
    refine ⟨h2, ?_, ?_⟩
    · rw [Nat.add_comm, Nat.add_mul_div_right _ _ hpos, Nat.div_eq_of_lt hcc, Nat.zero_add]
    · rw [Nat.add_comm, Nat.add_mul_mod_self_right, Nat.mod_eq_of_lt hcc]
  have hbwd : ∀ i, i < rows * cols →
      i / cols < rows ∧ i % cols < cols ∧ index_of cols (i / cols) (i % cols) = i := by
    intro i hi
    have h1 : i / cols < rows := (Nat.div_lt_iff_lt_mul hpos).mpr hi
    have h2 : i % cols < cols := Nat.mod_lt _ hpos
    refine ⟨h1, h2, ?_⟩
    unfold index_of
    have h3 : i / cols * cols + i % cols = i := by
      rw [Nat.mul_comm]; exact Nat.div_add_mod i cols
    rw [h3]
    apply Nat.mod_eq_of_lt
    simp only [UINT]; omega
  refine ⟨hfwd, hbwd, ?_, ?_⟩
  · intro r c r2 c2 h1 h2 h3 h4 heq
    have a := hfwd r c h1 h2
    have b := hfwd r2 c2 h3 h4
    rw [heq] at a
    exact ⟨a.2.1.symm.trans b.2.1, a.2.2.symm.trans b.2.2⟩
  · intro i hi
    have b := hbwd i hi
    exact ⟨i / cols, i % cols, b.1, b.2.1, b.2.2⟩

theorem index_of_bijection_witness :
    (∀ r c, r < 3 → c < 4 →
        index_of 4 r c < 3 * 4 ∧ index_of 4 r c / 4 = r ∧ index_of 4 r c % 4 = c) ∧
      (∀ i, i < 3 * 4 → i / 4 < 3 ∧ i % 4 < 4 ∧ index_of 4 (i / 4) (i % 4) = i) ∧
      (∀ r c r2 c2, r < 3 → c < 4 → r2 < 3 → c2 < 4 →
        index_of 4 r c = index_of 4 r2 c2 → r = r2 ∧ c = c2) ∧
      (∀ i, i < 3 * 4 → ∃ r c, r < 3 ∧ c < 4 ∧ index_of 4 r c = i) :=
  index_of_bijection 3 4 (by decide) (by decide) (by decide)

/-! ## The exit flag -/

/-- C13 (the code departs from it): a participant that has found the gold
moves up from row 1 of a 2x2 arena; the move stays on the grid (it lands on
cell 0), yet `controller` returns `exit_requested = true`.  And a participant
that has found the gold moves right from the last column of a 2x3 arena with
a participant in the next cell; the move crosses the right boundary, yet
`controller` returns `exit_requested = false` and puts the mover in the row
below. -/
theorem controller_exit_flag_wrong :
    goldMine_S.wellFormed ⟨2, 2, 4, [0, 0, 4, 0]⟩ ∧
      occupies stdMarkers ⟨2, 2, 4, [0, 0, 4, 0]⟩ ⟨1, true, [], []⟩ 2 ∧
      cell_toward ⟨2, 2, 4, [0, 0, 4, 0]⟩ 2 Direction.up 1 = some 0 ∧
      controller stdMarkers 107 ⟨2, 2, 4, [0, 0, 4, 0]⟩ ⟨1, true, [], []⟩ =
        some (true, ⟨2, 2, 4, [4, 0, 0, 0]⟩, ⟨1, true, [], []⟩) ∧
      goldMine_S.wellFormed ⟨2, 3, 12, [0, 0, 4, 8, 0, 0]⟩ ∧
      occupies stdMarkers ⟨2, 3, 12, [0, 0, 4, 8, 0, 0]⟩ ⟨1, true, [], []⟩ 2 ∧
      cell_toward ⟨2, 3, 12, [0, 0, 4, 8, 0, 0]⟩ 2 Direction.right 1 = none ∧
      controller stdMarkers 108 ⟨2, 3, 12, [0, 0, 4, 8, 0, 0]⟩ ⟨1, true, [], []⟩ =
        some (false, ⟨2, 3, 12, [0, 0, 0, 8, 4, 0]⟩, ⟨1, true, [], []⟩) := by
  decide

/-! ## Writes and the gate -/

theorem writes_with_gate_append (a b : List Op) :
    ∀ held, writes_with_gate held (a ++ b) =
      writes_with_gate held a ++ writes_with_gate (gate_after held a) b := by
  induction a with
  | nil => intro held; rfl
  | cons op t ih =>
    intro held
    cases op with
    | sem_wait ok => exact ih (held || ok)
    | sem_post => exact ih false
    | write src => exact congrArg (List.cons (src, held)) (ih held)

theorem gate_after_append (a b : List Op) :
    ∀ held, gate_after held (a ++ b) = gate_after (gate_after held a) b := by
  induction a with
  | nil => intro held; rfl
  | cons op t ih =>
    intro held
    cases op with
    | sem_wait ok => exact ih (held || ok)
    | sem_post => exact ih false
    | write src => exact ih held

/-- The key loop, entered without the gate: every write is a write of a move
made with the gate held, and the gate is given back unless the process
faulted. -/
theorem key_loop_ops_guarded (K : Goldchase) (ks : List KeyPress) :
    ∀ p, (∀ x ∈ writes_with_gate false (key_loop_ops K p ks).1, x = (Origin.move, true)) ∧
      ((key_loop_ops K p ks).2 ≠ none → gate_after false (key_loop_ops K p ks).1 = false) := by
  induction ks with
  | nil =>
    intro p
    simp [key_loop_ops, writes_with_gate, gate_after]
  | cons k ks ih =>
    intro p
    unfold key_loop_ops
    by_cases hk : k.input ∈ [104, 72, 106, 74, 107, 75, 108, 76]
    · rw [if_pos hk]
      by_cases hw : k.wait_ok = true
      · rw [if_pos hw]
        cases hc : controller K k.input k.arena p with
        | none => simp [writes_with_gate]
        | some r =>
          obtain ⟨e, g1, p1⟩ := r
          by_cases hacc : move_accepted K k.input k.arena p = true
          · by_cases he : e = true
            · simp [hacc, he, writes_with_gate, gate_after]
            · have h := ih p1
              simp only [hacc, he, if_true, Bool.false_eq_true, if_false, List.cons_append,
                List.nil_append, List.append_assoc, List.singleton_append, writes_with_gate,
                gate_after, Bool.or_true, Bool.false_or, List.mem_cons]
              refine ⟨?_, h.2⟩
              intro x hx
              rcases hx with hx | hx | hx
              · exact hx
              · exact hx
              · exact h.1 x hx
          · by_cases he : e = true
            · simp [hacc, he, writes_with_gate, gate_after]
            · have h := ih p1
              simp only [hacc, he, Bool.false_eq_true, if_false, List.cons_append,
                List.nil_append, List.append_nil, List.singleton_append, writes_with_gate,
                gate_after, Bool.or_true, Bool.false_or]
              exact h
      · rw [if_neg hw]
        have h := ih p
        have hw2 : k.wait_ok = false := by simpa using hw
        simp only [writes_with_gate, gate_after, hw2, Bool.or_false]
        exact h
    · rw [if_neg hk]
      by_cases hq : k.input = 113 ∨ k.input = 81
      · rw [if_pos hq]
        simp [writes_with_gate, gate_after]
      · rw [if_neg hq]
        exact ih p

theorem clean_up_ops_writes (K : Goldchase) (g : goldMine_S) (p : Process) :
    ∀ x ∈ writes_with_gate false (clean_up_ops K g p), x = (Origin.teardown, false) := by
  unfold clean_up_ops
  split
  · split <;> simp [writes_with_gate]
  · simp [writes_with_gate]

theorem play_ops_writes (K : Goldchase) (p : Process) (keys : List KeyPress)
    (final : goldMine_S) :
    ∀ x ∈ writes_with_gate false (play_ops K p keys final),
      x = (Origin.placement, false) ∨ x = (Origin.move, true) ∨ x = (Origin.teardown, false) := by
  intro x hx
  have hk := key_loop_ops_guarded K keys p
  unfold play_ops at hx
  rw [writes_with_gate_append, writes_with_gate_append] at hx
  simp only [List.mem_append] at hx
  rcases hx with (hx | hx) | hx
  · left
    simpa [writes_with_gate] using hx
  · right; left
    have : gate_after false [Op.write Origin.placement, Op.write Origin.placement] = false := rfl
    rw [this] at hx
    exact hk.1 x hx
  · right; right
    cases hp : (key_loop_ops K p keys).2 with
    | none =>
      rw [hp] at hx
      simp [writes_with_gate] at hx
    | some p1 =>
      rw [hp] at hx
      have hne : (key_loop_ops K p keys).2 ≠ none := by rw [hp]; simp
      have hg := hk.2 hne
      rw [gate_after_append] at hx
      have : gate_after false [Op.write Origin.placement, Op.write Origin.placement] = false := rfl
      rw [this, hg] at hx
      exact clean_up_ops_writes K final p1 x hx

/-- C14, as amended: in every execution of `main`, a write made by a move
(`controller`, `move_player`) or by the set-up of the host is made while the
process holds the gate, after a successful `sem_wait` and before the next
`sem_post`, and a write of `clean_up` is made while it does not hold the
gate. -/
theorem main_ops_gate (K : Goldchase) (e : Execution) :
    ∀ x ∈ writes_with_gate false (main_ops K e),
      (x.1 = Origin.move → x.2 = true) ∧ (x.1 = Origin.setup → x.2 = true) ∧
        (x.1 = Origin.teardown → x.2 = false) := by
  have hplay : ∀ p, ∀ x ∈ writes_with_gate false (play_ops K p e.keys e.final),
      (x.1 = Origin.move → x.2 = true) ∧ (x.1 = Origin.setup → x.2 = true) ∧
        (x.1 = Origin.teardown → x.2 = false) := by
    intro p x hx
    rcases play_ops_writes K p e.keys e.final x hx with h | h | h <;> subst h <;> simp
  intro x hx
  unfold main_ops at hx
  by_cases h1 : e.init_wait_ok = true
  · rw [if_pos h1] at hx
    by_cases h2 : e.init_ok = true
    · rw [if_pos h2] at hx
      by_cases h3 : e.host = true
      · rw [if_pos h3] at hx
        have hpre : writes_with_gate false [Op.sem_wait true, Op.write Origin.setup, Op.sem_post] =
            [(Origin.setup, true)] := rfl
        have hgate : gate_after false [Op.sem_wait true, Op.write Origin.setup, Op.sem_post] =
            false := rfl
        rw [writes_with_gate_append, hpre, hgate, List.mem_append, List.mem_singleton] at hx
        rcases hx with hx | hx
        · subst hx; simp
        · exact hplay _ x hx
      · rw [if_neg h3] at hx
        cases hs : run_subsequent_player_init_routine K e.arena ⟨2, false, [], []⟩ with
        | mk ok rest =>
          obtain ⟨g1, p1⟩ := rest
          rw [hs] at hx
          cases ok with
          | true =>
            have hpre : writes_with_gate false [Op.sem_wait true, Op.sem_post] = [] := rfl
            have hgate : gate_after false [Op.sem_wait true, Op.sem_post] = false := rfl
            rw [writes_with_gate_append, hpre, hgate, List.nil_append] at hx
            exact hplay _ x hx
          | false => simp [writes_with_gate] at hx
    · rw [if_neg h2] at hx
      simp [writes_with_gate] at hx
  · rw [if_neg h1] at hx
    simp [writes_with_gate] at hx

theorem main_ops_gate_witness :
    (Origin.move, true) ∈ writes_with_gate false
        (main_ops stdMarkers ⟨false, true, true, ⟨1, 4, 4, [4, 0, 0, 0]⟩,
          [⟨108, true, ⟨1, 4, 12, [4, 8, 0, 0]⟩⟩, ⟨113, true, ⟨1, 4, 12, [4, 0, 8, 0]⟩⟩],
          ⟨1, 4, 12, [4, 0, 8, 0]⟩⟩) ∧
      (((Origin.move, true).1 = Origin.move → (Origin.move, true).2 = true) ∧
        ((Origin.move, true).1 = Origin.setup → (Origin.move, true).2 = true) ∧
        ((Origin.move, true).1 = Origin.teardown → (Origin.move, true).2 = false)) :=
  ⟨by decide,
    main_ops_gate stdMarkers ⟨false, true, true, ⟨1, 4, 4, [4, 0, 0, 0]⟩,
        [⟨108, true, ⟨1, 4, 12, [4, 8, 0, 0]⟩⟩, ⟨113, true, ⟨1, 4, 12, [4, 0, 8, 0]⟩⟩],
        ⟨1, 4, 12, [4, 0, 8, 0]⟩⟩ (Origin.move, true) (by decide)⟩

/-- C14 as stated fails: in the execution of a host that presses no key, the
writes at the head of `main_loop` and the writes of `clean_up` are made while
the process does not hold the gate. -/
theorem main_ops_write_outside_gate :
    ¬ (∀ x ∈ writes_with_gate false
          (main_ops stdMarkers ⟨true, true, true, ⟨1, 4, 0, [0, 0, 0, 0]⟩, [],
            ⟨1, 4, 4, [4, 0, 0, 0]⟩⟩), x.2 = true) ∧
      (Origin.teardown, false) ∈ writes_with_gate false
          (main_ops stdMarkers ⟨true, true, true, ⟨1, 4, 0, [0, 0, 0, 0]⟩, [],
            ⟨1, 4, 4, [4, 0, 0, 0]⟩⟩) := by
  decide

/-! ## Cell accesses -/

/-- C15 (the code departs from it): on a 2x2 arena the participant in the last
row, which has not found the gold, asks to move down; the test of `controller`
lets the move through, the participant test reads `gmp->map` at index
`2 + 2 = 4`, which is not below `rows * cols = 4`, and the call faults. -/
theorem controller_down_reads_outside :
    goldMine_S.wellFormed ⟨2, 2, 4, [0, 0, 4, 0]⟩ ∧
      occupies stdMarkers ⟨2, 2, 4, [0, 0, 4, 0]⟩ ⟨1, false, [], []⟩ 2 ∧
      controller_pl stdMarkers ⟨2, 2, 4, [0, 0, 4, 0]⟩ ⟨1, false, [], []⟩ = some 2 ∧
      decide (2 / 2 < (2 * 2 + 1) % UINT) = true ∧
      (2 + 2) % UINT = 4 ∧ ¬ (4 < 2 * 2) ∧
      [0, 0, 4, 0][4]? = none ∧
      case_j stdMarkers ⟨2, 2, 4, [0, 0, 4, 0]⟩ false 2 = none ∧
      controller stdMarkers 106 ⟨2, 2, 4, [0, 0, 4, 0]⟩ ⟨1, false, [], []⟩ = none := by
  decide

end GoldMine
